import Mathlib

/-!
Shallow embedding of the DPCPP indexed read/write engine (gather, scatter,
scatter_fill, scatter_add) from `ScatterGather.cpp`.

Tensors are dense N-dimensional views: a shape, a stride vector and a flat
storage buffer.  Element values of every supported scalar type are modelled
as integers.  The control flow of the four `impl::` functions (validation
order, empty-index short-circuit, overlap guard, address-width selection and
rank-specialised dispatch) is translated line by line from the source; the
kernel bodies, the overlap test, `canUse32BitIndexMath`, `contiguous()`,
`copy_` and the legacy `TensorImpl_*` rank helpers are not part of the
source tree and are modelled from the specification (each such definition
says so in its doc comment).
-/

/-- Element values of every supported scalar type are modelled as integers. -/
abbrev Val := Int

/-- The scalar types covered by `AT_DISPATCH_ALL_TYPES_AND(at::ScalarType::Bool, ...)`:
the seven standard numeric types plus boolean. -/
inductive ScalarType where
  | float32 | float64 | int8 | int16 | int32 | int64 | uint8 | boolean
deriving DecidableEq

/-- Mirrors the `IS_FLOAT32(scalar_t)` test used by the SFINAE dispatch of
`impl::ScatterAdd`: true exactly for single-precision float. -/
def IS_FLOAT32 : ScalarType → Bool
  | .float32 => true
  | _ => false

/-- Mirrors the `IS_INT(scalar_t)` test used by the SFINAE dispatch of
`impl::ScatterAdd`: true for the integral types, excluding boolean. -/
def IS_INT : ScalarType → Bool
  | .int8 | .int16 | .int32 | .int64 | .uint8 => true
  | _ => false

/-- A tensor view: shape, per-dimension strides, flat storage, element type. -/
structure Tensor where
  sizes : List Nat
  strides : List Nat
  data : List Val
  dtype : ScalarType
deriving DecidableEq

/-- Total element count of a view (`numel()`). -/
def numel (t : Tensor) : Nat := t.sizes.prod

/-- Row-major (contiguous) strides of a shape: each dimension's stride is the
product of all later sizes. -/
def contigStrides : List Nat → List Nat
  | [] => []
  | _ :: rest => rest.prod :: contigStrides rest

/-- Flat storage offset of a coordinate tuple under a stride vector. -/
def offsetOf (strides : List Nat) (c : List Nat) : Nat :=
  (List.zipWith (· * ·) c strides).sum

/-- Decompose a row-major linear index into a coordinate tuple of the given
shape (last dimension fastest). -/
def unflatten : List Nat → Nat → List Nat
  | [], _ => []
  | _ :: rest, l => l / rest.prod :: unflatten rest (l % rest.prod)

/-- A coordinate tuple is valid for a shape when it has the same length and
is pointwise below the sizes. -/
def validCoord : List Nat → List Nat → Bool
  | [], [] => true
  | x :: c, s :: sizes => decide (x < s) && validCoord c sizes
  | _, _ => false

/-- All valid coordinates of a shape, enumerated in row-major order. -/
def allCoords (sizes : List Nat) : List (List Nat) :=
  (List.range sizes.prod).map (unflatten sizes)

/-- Logical element of a tensor at a coordinate (reads the flat storage at
the strided offset; out-of-storage reads default to 0). -/
def readTensor (t : Tensor) (c : List Nat) : Val :=
  t.data.getD (offsetOf t.strides c) 0

/-- Modelled from the spec: `TensorImpl_nDimensionLegacyNoScalars` (declared
in the external `TensorImplUtils` header), the legacy rank in which a
0-dimensional tensor counts as 1-dimensional. -/
def nDimensionLegacyNoScalars (t : Tensor) : Nat := max 1 t.sizes.length

/-- Modelled from the spec: `TensorImpl_nDimensionLegacyAll` (external
header), the legacy rank that is 0 exactly when the tensor has no elements
("rank(index) == 0 (empty)" in the spec invariants), and otherwise treats a
0-dimensional tensor as 1-dimensional. -/
def nDimensionLegacyAll (t : Tensor) : Nat :=
  if numel t = 0 then 0 else max 1 t.sizes.length

/-- Modelled from the spec: `TensorImpl_sizeLegacyNoScalars` (external
header): the size of dimension `d`, a 0-dimensional tensor reporting size 1. -/
def sizeLegacyNoScalars (t : Tensor) (d : Nat) : Nat :=
  if t.sizes.isEmpty then 1 else t.sizes.getD d 1

/-- The fixed maximum supported rank (`MAX_DPCPPTORCH_DIMS`, external header;
the spec only requires a fixed maximum). -/
def MAX_DPCPPTORCH_DIMS : Nat := 25

/-- Modelled from the spec: `canUse32BitIndexMath` (external header).  The
Address-Width Selector "computes, for all tensors participating in one call,
whether every element count is representable in an unsigned 32-bit integer". -/
def canUse32BitIndexMath (t : Tensor) : Bool := decide (numel t < 2 ^ 32)

/-- Modelled from the spec: `maybeOverlappingIndices` (external header), the
overlap test: "boolean predicate answering whether a tensor's stride pattern
permits address aliasing across distinct coordinates". -/
def maybeOverlappingIndices (t : Tensor) : Bool :=
  (allCoords t.sizes).any fun c1 => (allCoords t.sizes).any fun c2 =>
    !(c1 == c2) && (offsetOf t.strides c1 == offsetOf t.strides c2)

/-- Modelled from the spec: `Tensor::contiguous()` (external capability): a
fresh row-major buffer holding a full value-copy of the view, element by
element in coordinate order. -/
def contiguousOf (t : Tensor) : Tensor :=
  { sizes := t.sizes
    strides := contigStrides t.sizes
    data := (allCoords t.sizes).map fun c => t.data.getD (offsetOf t.strides c) 0
    dtype := t.dtype }

/-- Modelled from the spec: `dst.copy_(src)` (external capability): for every
coordinate of the destination's shape, store the source's element at that
coordinate into the destination's strided storage. -/
def copyBackInto (old : Tensor) (src : Tensor) : Tensor :=
  { old with
    data := (allCoords old.sizes).foldl
      (fun d c => d.set (offsetOf old.strides c)
        (src.data.getD (offsetOf src.strides c) 0)) old.data }

/-- Per-dimension coordinate computation of the kernels.  `dims` mirrors the
`DIMS` template argument: 1, 2 and 3 select the compile-time-unrolled forms
(divisions and remainders taken from the last dimension inward, as the
fixed-rank `IndexToOffset` instantiations do), any other value the generic
runtime loop over all dimensions. -/
def coordCompute (dims : Int) (sizes : List Nat) (l : Nat) : List Nat :=
  if dims = 1 then [l]
  else if dims = 2 then [l / sizes.getD 1 1, l % sizes.getD 1 1]
  else if dims = 3 then
    [l / sizes.getD 2 1 / sizes.getD 1 1,
     l / sizes.getD 2 1 % sizes.getD 1 1,
     l % sizes.getD 2 1]
  else unflatten sizes l

/-- Whether a kernel step overwrites the destination cell or accumulates
into it. -/
inductive WriteMode where
  | assign
  | accumulate

/-- One kernel iteration on the working destination's storage: compute the
target coordinate for step `l`, then either assign the step's value to its
strided offset or add it to the cell's current contents. -/
def indexedWrite (mode : WriteMode) (strides : List Nat) (tc : Nat → List Nat)
    (v : Nat → Val) (d : List Val) (l : Nat) : List Val :=
  let a := offsetOf strides (tc l)
  match mode with
  | .assign => d.set a (v l)
  | .accumulate => d.set a (d.getD a 0 + v l)

/-- The index value consumed by step `l`: the index tensor's element at the
coordinate decomposed from `l`, used as a position along the indexed axis. -/
def indexValAt (dims : Int) (index : Tensor) (l : Nat) : Nat :=
  (index.data.getD (offsetOf index.strides (coordCompute dims index.sizes l)) 0).toNat

/-- The coordinate obtained from step `l`'s coordinate by replacing its
`dim`-component with the index value at that coordinate. -/
def replacedCoord (dims : Int) (index : Tensor) (dim : Nat) (l : Nat) : List Nat :=
  (coordCompute dims index.sizes l).set dim (indexValAt dims index l)

/-- Modelled from the spec: the gather kernel (`THDPCPPTensor_gatherKernel`,
declared in the missing `ScatterGather.h`).  For every linear index below
`(TYPE)totalElements` (the cast is in the `RUN` macro of the source: the
count is truncated to the chosen address width), write
`dest[c] = src[c with dim replaced by index[c]]`.  `wbits` is the selected
address width, `dims` the rank specialisation. -/
def THDPCPPTensor_gatherKernel (wbits : Nat) (dims : Int)
    (tensor src index : Tensor) (dim : Nat) (total : Nat) : List Val :=
  (List.range (total % 2 ^ wbits)).foldl
    (indexedWrite .assign tensor.strides (fun l => coordCompute dims index.sizes l)
      (fun l => src.data.getD (offsetOf src.strides (replacedCoord dims index dim l)) 0))
    tensor.data

/-- Modelled from the spec: the scatter kernel (`THSyclTensor_scatterKernel`,
missing header).  For every linear index below `(TYPE)totalElements`, write
`dest[c with dim replaced by index[c]] = src[c]`. -/
def THSyclTensor_scatterKernel (wbits : Nat) (dims : Int)
    (tensor src index : Tensor) (dim : Nat) (total : Nat) : List Val :=
  (List.range (total % 2 ^ wbits)).foldl
    (indexedWrite .assign tensor.strides (replacedCoord dims index dim)
      (fun l => src.data.getD (offsetOf src.strides (coordCompute dims index.sizes l)) 0))
    tensor.data

/-- Modelled from the spec: the scatter-fill kernel
(`THSyclTensor_scatterFillKernel`, missing header).  For every linear index
below `(TYPE)totalElements`, write `dest[c with dim replaced by index[c]] =
value`. -/
def THSyclTensor_scatterFillKernel (wbits : Nat) (dims : Int)
    (tensor index : Tensor) (value : Val) (dim : Nat) (total : Nat) : List Val :=
  (List.range (total % 2 ^ wbits)).foldl
    (indexedWrite .assign tensor.strides (replacedCoord dims index dim)
      (fun _ => value))
    tensor.data

/-- Modelled from the spec: the scatter-add kernel's accumulation loop over
an explicit processing order, so that order-independence can be stated.  Each
step performs `dest[c with dim replaced by index[c]] += src[c]`. -/
def THSyclTensor_scatterAddKernelOrd (order : List Nat) (dims : Int)
    (tensor src index : Tensor) (dim : Nat) : List Val :=
  order.foldl
    (indexedWrite .accumulate tensor.strides (replacedCoord dims index dim)
      (fun l => src.data.getD (offsetOf src.strides (coordCompute dims index.sizes l)) 0))
    tensor.data

/-- Modelled from the spec: the scatter-add kernel
(`THSyclTensor_scatterAddKernel`, missing header): the accumulation loop run
over the linear indices below `(TYPE)totalElements` in ascending order. -/
def THSyclTensor_scatterAddKernel (wbits : Nat) (dims : Int)
    (tensor src index : Tensor) (dim : Nat) (total : Nat) : List Val :=
  THSyclTensor_scatterAddKernelOrd (List.range (total % 2 ^ wbits)) dims tensor src index dim

/-- The engine's error taxonomy: `InvalidArgument` for rank/axis/size
violations (every `TORCH_CHECK` failure of the four operations),
`UnsupportedType` for a non-numeric accumulation request. -/
inductive Err where
  | invalidArgument
  | unsupportedType
deriving DecidableEq

/-- The Aliasing Guard, exactly as each of the four `impl::` functions
performs it: if the destination's stride pattern may alias, substitute a
contiguous value-copy as the working destination, run the kernel on it and
copy the buffer back into the original destination
(`oldTensor.copy_(tensor)`); otherwise run the kernel on the destination
directly.  The boolean records whether a clone was made
(`oldTensor.defined()`). -/
def runGuarded (kern : Tensor → List Val) (t : Tensor) : Tensor × Bool :=
  if maybeOverlappingIndices t then
    let work := contiguousOf t
    (copyBackInto t { work with data := kern work }, true)
  else
    ({ t with data := kern t }, false)

/-- The kernel-launch block of `impl::Gather`: run only when
`totalElements > 0`; select the narrow (32-bit) instantiation when every
participating tensor passes `canUse32BitIndexMath`, otherwise the wide
(64-bit) one; within the narrow branch specialise on the index tensor's
rank (1, 2, 3, generic). -/
def gatherDispatch (src index : Tensor) (dim : Int) (totalElements : Nat)
    (work : Tensor) : List Val :=
  if 0 < totalElements then
    if canUse32BitIndexMath work && canUse32BitIndexMath src &&
        canUse32BitIndexMath index then
      match index.sizes.length with
      | 1 => THDPCPPTensor_gatherKernel 32 1 work src index dim.toNat totalElements
      | 2 => THDPCPPTensor_gatherKernel 32 2 work src index dim.toNat totalElements
      | 3 => THDPCPPTensor_gatherKernel 32 3 work src index dim.toNat totalElements
      | _ => THDPCPPTensor_gatherKernel 32 (-1) work src index dim.toNat totalElements
    else
      THDPCPPTensor_gatherKernel 64 (-1) work src index dim.toNat totalElements
  else work.data

/-- The kernel-launch block of `impl::Scatter` (same selection structure as
gather's). -/
def scatterDispatch (src index : Tensor) (dim : Int) (totalElements : Nat)
    (work : Tensor) : List Val :=
  if 0 < totalElements then
    if canUse32BitIndexMath work && canUse32BitIndexMath src &&
        canUse32BitIndexMath index then
      match index.sizes.length with
      | 1 => THSyclTensor_scatterKernel 32 1 work src index dim.toNat totalElements
      | 2 => THSyclTensor_scatterKernel 32 2 work src index dim.toNat totalElements
      | 3 => THSyclTensor_scatterKernel 32 3 work src index dim.toNat totalElements
      | _ => THSyclTensor_scatterKernel 32 (-1) work src index dim.toNat totalElements
    else
      THSyclTensor_scatterKernel 64 (-1) work src index dim.toNat totalElements
  else work.data

/-- The kernel-launch block of `impl::ScatterFill`: no source tensor takes
part in the width selection, and there is no `totalElements > 0` guard (the
empty case has already returned). -/
def scatterFillDispatch (index : Tensor) (value : Val) (dim : Int)
    (totalElements : Nat) (work : Tensor) : List Val :=
  if canUse32BitIndexMath work && canUse32BitIndexMath index then
    match index.sizes.length with
    | 1 => THSyclTensor_scatterFillKernel 32 1 work index value dim.toNat totalElements
    | 2 => THSyclTensor_scatterFillKernel 32 2 work index value dim.toNat totalElements
    | 3 => THSyclTensor_scatterFillKernel 32 3 work index value dim.toNat totalElements
    | _ => THSyclTensor_scatterFillKernel 32 (-1) work index value dim.toNat totalElements
  else
    THSyclTensor_scatterFillKernel 64 (-1) work index value dim.toNat totalElements

/-- The kernel-launch block of the numeric `impl::ScatterAdd` (same selection
structure as scatter's). -/
def scatterAddDispatch (src index : Tensor) (dim : Int) (totalElements : Nat)
    (work : Tensor) : List Val :=
  if 0 < totalElements then
    if canUse32BitIndexMath work && canUse32BitIndexMath src &&
        canUse32BitIndexMath index then
      match index.sizes.length with
      | 1 => THSyclTensor_scatterAddKernel 32 1 work src index dim.toNat totalElements
      | 2 => THSyclTensor_scatterAddKernel 32 2 work src index dim.toNat totalElements
      | 3 => THSyclTensor_scatterAddKernel 32 3 work src index dim.toNat totalElements
      | _ => THSyclTensor_scatterAddKernel 32 (-1) work src index dim.toNat totalElements
    else
      THSyclTensor_scatterAddKernel 64 (-1) work src index dim.toNat totalElements
  else work.data

/-- `impl::Gather` translated from the source: the four rank checks, the
axis-bounds check, the off-axis size equalities, the maximum-rank check, then
the overlap guard around the width- and rank-dispatched kernel (the kernel
runs only when `totalElements > 0`). -/
def GatherImpl (tensor : Tensor) (src : Tensor) (dim : Int) (index : Tensor) :
    Except Err Tensor :=
  if ¬ (nDimensionLegacyNoScalars index = nDimensionLegacyNoScalars src) then
    .error .invalidArgument
  else if ¬ (nDimensionLegacyNoScalars index = nDimensionLegacyNoScalars tensor) then
    .error .invalidArgument
  else if ¬ (0 ≤ dim ∧ dim < (nDimensionLegacyNoScalars tensor : Int)) then
    .error .invalidArgument
  else if ¬ (nDimensionLegacyNoScalars src = nDimensionLegacyNoScalars tensor) then
    .error .invalidArgument
  else if ¬ ((List.range (nDimensionLegacyNoScalars tensor)).all fun d =>
      ((d : Int) == dim) ||
        (sizeLegacyNoScalars tensor d == sizeLegacyNoScalars src d)) then
    .error .invalidArgument
  else if ¬ (nDimensionLegacyNoScalars tensor ≤ MAX_DPCPPTORCH_DIMS) then
    .error .invalidArgument
  else
    let totalElements := numel index
    .ok (runGuarded (gatherDispatch src index dim totalElements) tensor).1

/-- `impl::Scatter` translated from the source: axis-bounds check, the
empty-or-equal-rank check against `src`, the `src`/`tensor` rank check, the
empty-index no-op return, then per-dimension size checks (`index ≤ tensor`
off-axis, `index ≤ src` on every dimension), the maximum-rank check, and the
guarded, dispatched kernel. -/
def ScatterImpl (tensor : Tensor) (dim : Int) (index : Tensor) (src : Tensor) :
    Except Err Tensor :=
  let index_ndim_legacy_all := nDimensionLegacyAll index
  if ¬ (0 ≤ dim ∧ dim < (nDimensionLegacyNoScalars tensor : Int)) then
    .error .invalidArgument
  else if ¬ (index_ndim_legacy_all = 0 ∨
      nDimensionLegacyNoScalars index = nDimensionLegacyNoScalars src) then
    .error .invalidArgument
  else if ¬ (nDimensionLegacyNoScalars src = nDimensionLegacyNoScalars tensor) then
    .error .invalidArgument
  else if index_ndim_legacy_all = 0 then
    .ok tensor
  else if ¬ ((List.range (nDimensionLegacyNoScalars tensor)).all fun d =>
      (((d : Int) == dim) ||
        decide (sizeLegacyNoScalars index d ≤ sizeLegacyNoScalars tensor d)) &&
      decide (sizeLegacyNoScalars index d ≤ sizeLegacyNoScalars src d)) then
    .error .invalidArgument
  else if ¬ (tensor.sizes.length ≤ MAX_DPCPPTORCH_DIMS) then
    .error .invalidArgument
  else
    let totalElements := numel index
    .ok (runGuarded (scatterDispatch src index dim totalElements) tensor).1

/-- `impl::ScatterFill` translated from the source: axis-bounds check, the
empty-or-equal-rank check against the destination, the scalar conversion,
the empty-index no-op return, the off-axis size checks (`index ≤ tensor`
only), the maximum-rank check, and the guarded, dispatched kernel (run
unconditionally: the empty case has already returned). -/
def ScatterFillImpl (tensor : Tensor) (dim : Int) (index : Tensor)
    (value_scalar : Val) : Except Err Tensor :=
  let index_ndim_legacy_all := nDimensionLegacyAll index
  if ¬ (0 ≤ dim ∧ dim < (nDimensionLegacyNoScalars tensor : Int)) then
    .error .invalidArgument
  else if ¬ (index_ndim_legacy_all = 0 ∨
      nDimensionLegacyNoScalars index = nDimensionLegacyNoScalars tensor) then
    .error .invalidArgument
  else
    let value := value_scalar
    if index_ndim_legacy_all = 0 then
      .ok tensor
    else if ¬ ((List.range (nDimensionLegacyNoScalars tensor)).all fun d =>
        ((d : Int) == dim) ||
          decide (sizeLegacyNoScalars index d ≤ sizeLegacyNoScalars tensor d)) then
      .error .invalidArgument
    else if ¬ (tensor.sizes.length ≤ MAX_DPCPPTORCH_DIMS) then
      .error .invalidArgument
    else
      let totalElements := numel index
      .ok (runGuarded (scatterFillDispatch index value dim totalElements) tensor).1

/-- The numeric overload of `impl::ScatterAdd` (selected by SFINAE when
`IS_FLOAT32(scalar_t) || IS_INT(scalar_t)`), translated from the source: the
same validation sequence as `impl::Scatter`, then the guarded, dispatched
accumulation kernel. -/
def ScatterAddImpl (tensor : Tensor) (dim : Int) (index : Tensor) (src : Tensor) :
    Except Err Tensor :=
  let index_ndim_legacy_all := nDimensionLegacyAll index
  if ¬ (0 ≤ dim ∧ dim < (nDimensionLegacyNoScalars tensor : Int)) then
    .error .invalidArgument
  else if ¬ (index_ndim_legacy_all = 0 ∨
      nDimensionLegacyNoScalars index = nDimensionLegacyNoScalars src) then
    .error .invalidArgument
  else if ¬ (nDimensionLegacyNoScalars src = nDimensionLegacyNoScalars tensor) then
    .error .invalidArgument
  else if index_ndim_legacy_all = 0 then
    .ok tensor
  else if ¬ ((List.range (nDimensionLegacyNoScalars tensor)).all fun d =>
      (((d : Int) == dim) ||
        decide (sizeLegacyNoScalars index d ≤ sizeLegacyNoScalars tensor d)) &&
      decide (sizeLegacyNoScalars index d ≤ sizeLegacyNoScalars src d)) then
    .error .invalidArgument
  else if ¬ (tensor.sizes.length ≤ MAX_DPCPPTORCH_DIMS) then
    .error .invalidArgument
  else
    let totalElements := numel index
    .ok (runGuarded (scatterAddDispatch src index dim totalElements) tensor).1

/-- The condition the non-numeric `impl::ScatterAdd` overload passes to
`TORCH_CHECK`.  The source reads
`TORCH_CHECK("scatter add only supports float and int type");`:
the message string itself is the condition, and a string literal is a
non-null pointer that converts to `true`. -/
def scatterAddFallbackCheckCond : Bool := true

/-- The non-numeric overload of `impl::ScatterAdd` (selected by SFINAE for
every other element type).  `TORCH_CHECK(cond)` raises only when `cond` is
false; here the condition (the message string used as a pointer) is always
true, so the check passes, no error is raised, and the function returns with
the destination untouched. -/
def ScatterAddNonNumeric (tensor : Tensor) (_dim : Int) (_index _src : Tensor) :
    Except Err Tensor :=
  if scatterAddFallbackCheckCond then
    .ok tensor
  else
    .error .unsupportedType

/-- `scatter_` (tensor-source overload): element-type dispatch over all types
and boolean, every instantiation running `impl::Scatter`. -/
def scatter_ (self : Tensor) (dim : Int) (index : Tensor) (src : Tensor) :
    Except Err Tensor :=
  ScatterImpl self dim index src

/-- `scatter_` (scalar-value overload, here named `scatter_fill_`):
element-type dispatch over all types and boolean, every instantiation
running `impl::ScatterFill`. -/
def scatter_fill_ (self : Tensor) (dim : Int) (index : Tensor) (value : Val) :
    Except Err Tensor :=
  ScatterFillImpl self dim index value

/-- `scatter_add_`: element-type dispatch over all types and boolean; SFINAE
then selects the numeric `impl::ScatterAdd` for float32 and the integral
types and the non-numeric overload for everything else (boolean, float64). -/
def scatter_add_ (self : Tensor) (dim : Int) (index : Tensor) (src : Tensor) :
    Except Err Tensor :=
  if IS_FLOAT32 self.dtype || IS_INT self.dtype then
    ScatterAddImpl self dim index src
  else
    ScatterAddNonNumeric self dim index src

/-- `gather_out`: element-type dispatch, every instantiation running
`impl::Gather` with `out` as the destination. -/
def gather_out (out : Tensor) (self : Tensor) (dim : Int) (index : Tensor) :
    Except Err Tensor :=
  GatherImpl out self dim index

/-- `gather`: allocate `out = at::empty({0})`, `resize_` it to the index
tensor's shape (fresh contiguous storage, contents unspecified, modelled as
zeros), and run `gather_out`. -/
def gather (self : Tensor) (dim : Int) (index : Tensor) : Except Err Tensor :=
  let out : Tensor :=
    { sizes := index.sizes
      strides := contigStrides index.sizes
      data := List.replicate (numel index) 0
      dtype := self.dtype }
  gather_out out self dim index

/-- Specification-side definition, written from the spec's words for the
refinement comparison of the Aliasing Guard claim: the specified scatter_fill
result read at a destination coordinate is the fill value when some index
coordinate addresses it (its axis-component replaced by the index value
there), and the prior destination value otherwise. -/
def specScatterFillRead (dest : Tensor) (dim : Nat) (index : Tensor) (value : Val)
    (c : List Nat) : Val :=
  if (allCoords index.sizes).any
      (fun k => k.set dim (readTensor index k).toNat == c) then
    value
  else readTensor dest c

/-! ### Coordinate arithmetic -/

lemma offsetOf_nil (strides : List Nat) : offsetOf strides [] = 0 := rfl

lemma offsetOf_cons (x : Nat) (c : List Nat) (s : Nat) (rest : List Nat) :
    offsetOf (s :: rest) (x :: c) = x * s + offsetOf rest c := by
  simp [offsetOf]

lemma offsetOf_contig_unflatten :
    ∀ (sizes : List Nat) (l : Nat), l < sizes.prod →
      offsetOf (contigStrides sizes) (unflatten sizes l) = l := by
  intro sizes
  induction sizes with
  | nil =>
    intro l h
    simp only [List.prod_nil] at h
    interval_cases l
    rfl
  | cons s rest ih =>
    intro l h
    have hR : 0 < rest.prod := by
      rcases Nat.eq_zero_or_pos rest.prod with h0 | h0
      · rw [List.prod_cons, h0, Nat.mul_zero] at h; omega
      · exact h0
    have hmod := ih (l % rest.prod) (Nat.mod_lt _ hR)
    rw [unflatten, contigStrides, offsetOf_cons, hmod, Nat.mul_comm]
    exact Nat.div_add_mod l rest.prod

lemma validCoord_cons_iff {x s : Nat} {c sizes : List Nat} :
    validCoord (x :: c) (s :: sizes) = true ↔ x < s ∧ validCoord c sizes = true := by
  simp [validCoord]

lemma offsetOf_lt_prod :
    ∀ (c sizes : List Nat), validCoord c sizes = true →
      offsetOf (contigStrides sizes) c < sizes.prod := by
  intro c
  induction c with
  | nil =>
    intro sizes h
    cases sizes with
    | nil => simp [offsetOf, List.prod_nil]
    | cons s rest => simp [validCoord] at h
  | cons x c ih =>
    intro sizes h
    cases sizes with
    | nil => simp [validCoord] at h
    | cons s rest =>
      rw [validCoord_cons_iff] at h
      have ho := ih rest h.2
      rw [contigStrides, offsetOf_cons, List.prod_cons]
      calc x * rest.prod + offsetOf (contigStrides rest) c
          < x * rest.prod + rest.prod := by omega
        _ = (x + 1) * rest.prod := by ring
        _ ≤ s * rest.prod := Nat.mul_le_mul_right _ (by omega)

lemma validCoord_unflatten :
    ∀ (sizes : List Nat) (l : Nat), l < sizes.prod →
      validCoord (unflatten sizes l) sizes = true := by
  intro sizes
  induction sizes with
  | nil => intro l h; rfl
  | cons s rest ih =>
    intro l h
    rw [List.prod_cons] at h
    have hR : 0 < rest.prod := by
      rcases Nat.eq_zero_or_pos rest.prod with h0 | h0
      · rw [h0, Nat.mul_zero] at h; omega
      · exact h0
    rw [unflatten, validCoord_cons_iff]
    exact ⟨(Nat.div_lt_iff_lt_mul hR).mpr h, ih _ (Nat.mod_lt _ hR)⟩

lemma unflatten_offsetOf_contig :
    ∀ (c sizes : List Nat), validCoord c sizes = true →
      unflatten sizes (offsetOf (contigStrides sizes) c) = c := by
  intro c
  induction c with
  | nil =>
    intro sizes h
    cases sizes with
    | nil => rfl
    | cons s rest => simp [validCoord] at h
  | cons x c ih =>
    intro sizes h
    cases sizes with
    | nil => simp [validCoord] at h
    | cons s rest =>
      rw [validCoord_cons_iff] at h
      have ho := offsetOf_lt_prod c rest h.2
      have hR : 0 < rest.prod := by omega
      rw [contigStrides, offsetOf_cons, unflatten]
      congr 1
      · rw [Nat.add_comm, Nat.add_mul_div_right _ _ hR,
          Nat.div_eq_of_lt ho, Nat.zero_add]
      · rw [Nat.add_comm, Nat.add_mul_mod_self_right, Nat.mod_eq_of_lt ho]
        exact ih rest h.2

lemma offsetOf_contig_inj {c1 c2 sizes : List Nat}
    (h1 : validCoord c1 sizes = true) (h2 : validCoord c2 sizes = true)
    (h : offsetOf (contigStrides sizes) c1 = offsetOf (contigStrides sizes) c2) :
    c1 = c2 := by
  have := unflatten_offsetOf_contig c1 sizes h1
  rw [h, unflatten_offsetOf_contig c2 sizes h2] at this
  exact this.symm

lemma mem_allCoords_iff {c : List Nat} {sizes : List Nat} :
    c ∈ allCoords sizes ↔ validCoord c sizes = true := by
  constructor
  · intro h
    rcases List.mem_map.mp h with ⟨l, hl, rfl⟩
    exact validCoord_unflatten sizes l (List.mem_range.mp hl)
  · intro h
    refine List.mem_map.mpr ⟨offsetOf (contigStrides sizes) c,
      List.mem_range.mpr (offsetOf_lt_prod c sizes h), unflatten_offsetOf_contig c sizes h⟩

lemma maybeOverlapping_contig (s : List Nat) (d : List Val) (ty : ScalarType) :
    maybeOverlappingIndices
      { sizes := s, strides := contigStrides s, data := d, dtype := ty } = false := by
  rw [maybeOverlappingIndices, List.any_eq_false]
  intro c1 h1
  simp only [Bool.not_eq_true]
  rw [List.any_eq_false]
  intro c2 h2
  simp only [Bool.not_eq_true]
  by_cases he : c1 = c2
  · simp [he]
  · have hoff : offsetOf (contigStrides s) c1 ≠ offsetOf (contigStrides s) c2 :=
      fun hoff => he (offsetOf_contig_inj (mem_allCoords_iff.mp h1)
        (mem_allCoords_iff.mp h2) hoff)
    simp [he, hoff]

/-! ### Storage update lemmas -/

lemma getD_set_ne {d : List Val} {i j : Nat} (h : i ≠ j) (v : Val) :
    (d.set i v).getD j 0 = d.getD j 0 := by
  simp [List.getD_eq_getElem?_getD, List.getElem?_set_ne h]

lemma getD_set_self (d : List Val) (i : Nat) (v : Val) (h : i < d.length) :
    (d.set i v).getD i 0 = v := by
  simp [List.getD_eq_getElem?_getD, List.getElem?_set_self h]

lemma foldl_ext {α : Type} (f g : List Val → α → List Val) (ls : List α)
    (h : ∀ d l, l ∈ ls → f d l = g d l) :
    ∀ d, ls.foldl f d = ls.foldl g d := by
  induction ls with
  | nil => intro d; rfl
  | cons x xs ih =>
    intro d
    rw [List.foldl_cons, List.foldl_cons, h d x (by simp)]
    exact ih (fun d l hl => h d l (List.mem_cons_of_mem _ hl)) _

lemma foldl_length_preserved {α : Type} (f : List Val → α → List Val)
    (hf : ∀ d l, (f d l).length = d.length) (ls : List α) :
    ∀ d, (ls.foldl f d).length = d.length := by
  induction ls with
  | nil => intro d; rfl
  | cons x xs ih => intro d; rw [List.foldl_cons, ih, hf]

lemma indexedWrite_length (mode : WriteMode) (strides : List Nat)
    (tc : Nat → List Nat) (v : Nat → Val) (d : List Val) (l : Nat) :
    (indexedWrite mode strides tc v d l).length = d.length := by
  cases mode <;> simp [indexedWrite]

lemma indexedWrite_getD_ne (mode : WriteMode) (strides : List Nat)
    (tc : Nat → List Nat) (v : Nat → Val) (d : List Val) (l : Nat) (a : Nat)
    (h : offsetOf strides (tc l) ≠ a) :
    (indexedWrite mode strides tc v d l).getD a 0 = d.getD a 0 := by
  cases mode
  · exact getD_set_ne h _
  · exact getD_set_ne h _

lemma foldl_indexedWrite_untouched (mode : WriteMode) (strides : List Nat)
    (tc : Nat → List Nat) (v : Nat → Val) (a : Nat) :
    ∀ (ls : List Nat), (∀ l ∈ ls, offsetOf strides (tc l) ≠ a) →
      ∀ d, (ls.foldl (indexedWrite mode strides tc v) d).getD a 0 = d.getD a 0 := by
  intro ls
  induction ls with
  | nil => intro _ d; rfl
  | cons x xs ih =>
    intro h d
    rw [List.foldl_cons, ih (fun l hl => h l (List.mem_cons_of_mem _ hl)),
      indexedWrite_getD_ne _ _ _ _ _ _ _ (h x (List.mem_cons_self _ _))]

lemma foldl_set_untouched {α : Type} (addr : α → Nat) (val : α → Val) (a : Nat) :
    ∀ (ls : List α), (∀ x ∈ ls, addr x ≠ a) →
      ∀ d : List Val,
        (ls.foldl (fun (d : List Val) x => d.set (addr x) (val x)) d).getD a 0
          = d.getD a 0 := by
  intro ls
  induction ls with
  | nil => intro _ d; rfl
  | cons x xs ih =>
    intro h d
    rw [List.foldl_cons, ih (fun l hl => h l (List.mem_cons_of_mem _ hl)),
      getD_set_ne (h x (List.mem_cons_self _ _))]

lemma foldl_set_const {α : Type} (addr : α → Nat) (val : α → Val) (a : Nat) (w : Val) :
    ∀ (ls : List α), (∀ x ∈ ls, addr x = a → val x = w) →
      ∀ d : List Val, d.getD a 0 = w →
        (ls.foldl (fun (d : List Val) x => d.set (addr x) (val x)) d).getD a 0 = w := by
  intro ls
  induction ls with
  | nil => intro _ d hd; exact hd
  | cons x xs ih =>
    intro h d hd
    rw [List.foldl_cons]
    refine ih (fun l hl => h l (List.mem_cons_of_mem _ hl)) _ ?_
    by_cases hx : addr x = a
    · rw [hx]
      by_cases hlen : a < d.length
      · rw [getD_set_self _ _ _ hlen]; exact h x (List.mem_cons_self _ _) hx
      · rw [List.set_eq_of_length_le (by omega)]; exact hd
    · rw [getD_set_ne hx]; exact hd

lemma foldl_set_unique {α : Type} (addr : α → Nat) (val : α → Val) (a : Nat)
    (cstar : α) (hca : addr cstar = a) :
    ∀ (ls : List α) (d : List Val), cstar ∈ ls →
      (∀ x ∈ ls, addr x = a → x = cstar) → a < d.length →
      (ls.foldl (fun (d : List Val) x => d.set (addr x) (val x)) d).getD a 0
        = val cstar := by
  intro ls
  induction ls with
  | nil => intro d h; exact absurd h (List.not_mem_nil _)
  | cons x xs ih =>
    intro d hmem huniq hlen
    rw [List.foldl_cons]
    by_cases hx : x = cstar
    · by_cases hmem2 : cstar ∈ xs
      · exact ih _ hmem2 (fun y hy => huniq y (List.mem_cons_of_mem _ hy)) (by simpa)
      · have hnone : ∀ y ∈ xs, addr y ≠ a := by
          intro y hy hya
          exact hmem2 (huniq y (List.mem_cons_of_mem _ hy) hya ▸ hy)
        rw [foldl_set_untouched addr val a xs hnone, hx, hca]
        rw [getD_set_self _ _ _ (by omega)]
    · have hxa : addr x ≠ a := fun h => hx (huniq x (List.mem_cons_self _ _) h)
      have hmem3 : cstar ∈ xs := by
        rcases List.mem_cons.mp hmem with h | h
        · exact absurd h.symm hx
        · exact h
      exact ih _ hmem3 (fun y hy => huniq y (List.mem_cons_of_mem _ hy)) (by simpa)

lemma foldl_set_range_getD (v : Nat → Val) (n : Nat) :
    ∀ (d : List Val) (i : Nat), i < n → i < d.length →
      ((List.range n).foldl (fun d l => d.set l (v l)) d).getD i 0 = v i := by
  induction n with
  | zero => intro d i hi; omega
  | succ n ih =>
    intro d i hi hlen
    rw [List.range_succ, List.foldl_append, List.foldl_cons, List.foldl_nil]
    by_cases h : i = n
    · subst h
      apply getD_set_self
      rw [foldl_length_preserved _ (fun d l => List.length_set d l (v l))]
      exact hlen
    · rw [getD_set_ne (fun hn => h hn.symm)]
      exact ih d i (by omega) hlen

lemma foldl_accum_getD (strides : List Nat) (tc : Nat → List Nat) (v : Nat → Val)
    (a : Nat) :
    ∀ (ls : List Nat) (d : List Val), a < d.length →
      (ls.foldl (indexedWrite .accumulate strides tc v) d).getD a 0
        = d.getD a 0 + ((ls.filter fun l => offsetOf strides (tc l) == a).map v).sum := by
  intro ls
  induction ls with
  | nil => intro d _; simp
  | cons x xs ih =>
    intro d hlen
    rw [List.foldl_cons, List.filter_cons]
    by_cases hx : offsetOf strides (tc x) = a
    · rw [if_pos (by simpa using hx), List.map_cons, List.sum_cons]
      have hstep : (indexedWrite .accumulate strides tc v d x).getD a 0
          = d.getD a 0 + v x := by
        simp only [indexedWrite, hx]
        exact getD_set_self _ _ _ hlen
      rw [ih _ (by rw [indexedWrite_length]; exact hlen), hstep]
      ring
    · rw [if_neg (by simpa using hx),
        ih _ (by rw [indexedWrite_length]; exact hlen),
        indexedWrite_getD_ne _ _ _ _ _ _ _ hx]

/-! ### Rank specialisation: the unrolled coordinate computations agree with
the generic one -/

lemma coordCompute_neg_one (sizes : List Nat) (l : Nat) :
    coordCompute (-1) sizes l = unflatten sizes l := by
  simp [coordCompute]

lemma coordCompute_one (sizes : List Nat) (h : sizes.length = 1) (l : Nat) :
    coordCompute 1 sizes l = unflatten sizes l := by
  match sizes, h with
  | [s0], _ => simp [coordCompute, unflatten]

lemma coordCompute_two (sizes : List Nat) (h : sizes.length = 2) (l : Nat) :
    coordCompute 2 sizes l = unflatten sizes l := by
  match sizes, h with
  | [s0, s1], _ => simp [coordCompute, unflatten]

lemma coordCompute_three (sizes : List Nat) (h : sizes.length = 3) (l : Nat) :
    coordCompute 3 sizes l = unflatten sizes l := by
  match sizes, h with
  | [s0, s1, s2], _ =>
    have e0 : l / s2 / s1 = l / (s1 * s2) := by
      rw [Nat.div_div_eq_div_mul, Nat.mul_comm]
    have e1 : l / s2 % s1 = l % (s1 * s2) / s2 := by
      rw [Nat.mul_comm s1 s2, Nat.mod_mul_right_div_self]
    have e2 : l % s2 = l % (s1 * s2) % s2 := by
      rw [Nat.mod_mod_of_dvd _ (dvd_mul_left s2 s1)]
    have hun : unflatten [s0, s1, s2] l
        = [l / (s1 * s2), l % (s1 * s2) / s2, l % (s1 * s2) % s2] := by
      simp [unflatten]
    have hcc : coordCompute 3 [s0, s1, s2] l = [l / s2 / s1, l / s2 % s1, l % s2] := by
      simp [coordCompute]
    rw [hcc, hun, e0, e1, e2]

/-! ### Width and rank reductions of the four kernels -/

lemma gatherKernel_canon_of (w : Nat) (dims : Int) (tensor src index : Tensor)
    (dim : Nat) (total : Nat) (hw : total < 2 ^ w) (h64 : total < 2 ^ 64)
    (hc : ∀ l, coordCompute dims index.sizes l = unflatten index.sizes l) :
    THDPCPPTensor_gatherKernel w dims tensor src index dim total
      = THDPCPPTensor_gatherKernel 64 (-1) tensor src index dim total := by
  unfold THDPCPPTensor_gatherKernel
  rw [Nat.mod_eq_of_lt hw, Nat.mod_eq_of_lt h64]
  apply foldl_ext
  intro d l _
  simp only [indexedWrite, replacedCoord, indexValAt, hc, coordCompute_neg_one]

lemma scatterKernel_canon_of (w : Nat) (dims : Int) (tensor src index : Tensor)
    (dim : Nat) (total : Nat) (hw : total < 2 ^ w) (h64 : total < 2 ^ 64)
    (hc : ∀ l, coordCompute dims index.sizes l = unflatten index.sizes l) :
    THSyclTensor_scatterKernel w dims tensor src index dim total
      = THSyclTensor_scatterKernel 64 (-1) tensor src index dim total := by
  unfold THSyclTensor_scatterKernel
  rw [Nat.mod_eq_of_lt hw, Nat.mod_eq_of_lt h64]
  apply foldl_ext
  intro d l _
  simp only [indexedWrite, replacedCoord, indexValAt, hc, coordCompute_neg_one]

lemma scatterFillKernel_canon_of (w : Nat) (dims : Int) (tensor index : Tensor)
    (value : Val) (dim : Nat) (total : Nat) (hw : total < 2 ^ w)
    (h64 : total < 2 ^ 64)
    (hc : ∀ l, coordCompute dims index.sizes l = unflatten index.sizes l) :
    THSyclTensor_scatterFillKernel w dims tensor index value dim total
      = THSyclTensor_scatterFillKernel 64 (-1) tensor index value dim total := by
  unfold THSyclTensor_scatterFillKernel
  rw [Nat.mod_eq_of_lt hw, Nat.mod_eq_of_lt h64]
  apply foldl_ext
  intro d l _
  simp only [indexedWrite, replacedCoord, indexValAt, hc, coordCompute_neg_one]

lemma scatterAddKernel_canon_of (w : Nat) (dims : Int) (tensor src index : Tensor)
    (dim : Nat) (total : Nat) (hw : total < 2 ^ w) (h64 : total < 2 ^ 64)
    (hc : ∀ l, coordCompute dims index.sizes l = unflatten index.sizes l) :
    THSyclTensor_scatterAddKernel w dims tensor src index dim total
      = THSyclTensor_scatterAddKernel 64 (-1) tensor src index dim total := by
  unfold THSyclTensor_scatterAddKernel THSyclTensor_scatterAddKernelOrd
  rw [Nat.mod_eq_of_lt hw, Nat.mod_eq_of_lt h64]
  apply foldl_ext
  intro d l _
  simp only [indexedWrite, replacedCoord, indexValAt, hc, coordCompute_neg_one]

/-! ### The dispatch blocks reduce to the generic wide kernel -/

lemma gatherDispatch_canon (src index : Tensor) (dim : Int)
    (h64 : numel index < 2 ^ 64) (work : Tensor) :
    gatherDispatch src index dim (numel index) work
      = if 0 < numel index then
          THDPCPPTensor_gatherKernel 64 (-1) work src index dim.toNat (numel index)
        else work.data := by
  unfold gatherDispatch
  by_cases h0 : 0 < numel index
  · rw [if_pos h0, if_pos h0]
    by_cases hcan : (canUse32BitIndexMath work && canUse32BitIndexMath src &&
        canUse32BitIndexMath index) = true
    · rw [if_pos hcan]
      have h32 : numel index < 2 ^ 32 := by
        simp only [canUse32BitIndexMath, Bool.and_eq_true, decide_eq_true_eq] at hcan
        exact hcan.2
      split
      next heq =>
        exact gatherKernel_canon_of 32 1 work src index dim.toNat _ h32 h64
          (coordCompute_one _ heq)
      next heq =>
        exact gatherKernel_canon_of 32 2 work src index dim.toNat _ h32 h64
          (coordCompute_two _ heq)
      next heq =>
        exact gatherKernel_canon_of 32 3 work src index dim.toNat _ h32 h64
          (coordCompute_three _ heq)
      next x h1 h2 h3 =>
        exact gatherKernel_canon_of 32 (-1) work src index dim.toNat _ h32 h64
          (coordCompute_neg_one _)
    · rw [if_neg hcan]
  · rw [if_neg h0, if_neg h0]

lemma scatterDispatch_canon (src index : Tensor) (dim : Int)
    (h64 : numel index < 2 ^ 64) (work : Tensor) :
    scatterDispatch src index dim (numel index) work
      = if 0 < numel index then
          THSyclTensor_scatterKernel 64 (-1) work src index dim.toNat (numel index)
        else work.data := by
  unfold scatterDispatch
  by_cases h0 : 0 < numel index
  · rw [if_pos h0, if_pos h0]
    by_cases hcan : (canUse32BitIndexMath work && canUse32BitIndexMath src &&
        canUse32BitIndexMath index) = true
    · rw [if_pos hcan]
      have h32 : numel index < 2 ^ 32 := by
        simp only [canUse32BitIndexMath, Bool.and_eq_true, decide_eq_true_eq] at hcan
        exact hcan.2
      split
      next heq =>
        exact scatterKernel_canon_of 32 1 work src index dim.toNat _ h32 h64
          (coordCompute_one _ heq)
      next heq =>
        exact scatterKernel_canon_of 32 2 work src index dim.toNat _ h32 h64
          (coordCompute_two _ heq)
      next heq =>
        exact scatterKernel_canon_of 32 3 work src index dim.toNat _ h32 h64
          (coordCompute_three _ heq)
      next x h1 h2 h3 =>
        exact scatterKernel_canon_of 32 (-1) work src index dim.toNat _ h32 h64
          (coordCompute_neg_one _)
    · rw [if_neg hcan]
  · rw [if_neg h0, if_neg h0]

lemma scatterFillDispatch_canon (index : Tensor) (value : Val) (dim : Int)
    (h64 : numel index < 2 ^ 64) (work : Tensor) :
    scatterFillDispatch index value dim (numel index) work
      = THSyclTensor_scatterFillKernel 64 (-1) work index value dim.toNat
          (numel index) := by
  unfold scatterFillDispatch
  by_cases hcan : (canUse32BitIndexMath work && canUse32BitIndexMath index) = true
  · rw [if_pos hcan]
    have h32 : numel index < 2 ^ 32 := by
      simp only [canUse32BitIndexMath, Bool.and_eq_true, decide_eq_true_eq] at hcan
      exact hcan.2
    split
    next heq =>
      exact scatterFillKernel_canon_of 32 1 work index value dim.toNat _ h32 h64
        (coordCompute_one _ heq)
    next heq =>
      exact scatterFillKernel_canon_of 32 2 work index value dim.toNat _ h32 h64
        (coordCompute_two _ heq)
    next heq =>
      exact scatterFillKernel_canon_of 32 3 work index value dim.toNat _ h32 h64
        (coordCompute_three _ heq)
    next x h1 h2 h3 =>
      exact scatterFillKernel_canon_of 32 (-1) work index value dim.toNat _ h32 h64
        (coordCompute_neg_one _)
  · rw [if_neg hcan]

lemma scatterAddDispatch_canon (src index : Tensor) (dim : Int)
    (h64 : numel index < 2 ^ 64) (work : Tensor) :
    scatterAddDispatch src index dim (numel index) work
      = if 0 < numel index then
          THSyclTensor_scatterAddKernel 64 (-1) work src index dim.toNat (numel index)
        else work.data := by
  unfold scatterAddDispatch
  by_cases h0 : 0 < numel index
  · rw [if_pos h0, if_pos h0]
    by_cases hcan : (canUse32BitIndexMath work && canUse32BitIndexMath src &&
        canUse32BitIndexMath index) = true
    · rw [if_pos hcan]
      have h32 : numel index < 2 ^ 32 := by
        simp only [canUse32BitIndexMath, Bool.and_eq_true, decide_eq_true_eq] at hcan
        exact hcan.2
      split
      next heq =>
        exact scatterAddKernel_canon_of 32 1 work src index dim.toNat _ h32 h64
          (coordCompute_one _ heq)
      next heq =>
        exact scatterAddKernel_canon_of 32 2 work src index dim.toNat _ h32 h64
          (coordCompute_two _ heq)
      next heq =>
        exact scatterAddKernel_canon_of 32 3 work src index dim.toNat _ h32 h64
          (coordCompute_three _ heq)
      next x h1 h2 h3 =>
        exact scatterAddKernel_canon_of 32 (-1) work src index dim.toNat _ h32 h64
          (coordCompute_neg_one _)
    · rw [if_neg hcan]
  · rw [if_neg h0, if_neg h0]

/-! ### Claim theorems: error handling -/

/-- C1: the claim says a scatter_add call on a non-numeric (e.g. boolean)
element type fails with UnsupportedType before any mutation, and that
UnsupportedType is raised iff the type is outside the numeric set.  The code
contradicts this: the non-numeric overload passes its message string as the
TORCH_CHECK condition, which is truthy, so the call silently returns the
destination unchanged and never raises.  This theorem evaluates the code's
behaviour: for every call whose element type fails the numeric test, the
result is `ok` with the destination untouched. -/
theorem C1_scatterAdd_nonNumeric_silently_succeeds
    (self : Tensor) (dim : Int) (index src : Tensor)
    (h : ¬ (IS_FLOAT32 self.dtype || IS_INT self.dtype) = true) :
    scatter_add_ self dim index src = .ok self := by
  unfold scatter_add_
  rw [if_neg h]
  rfl

/-- C1 witness: a concrete boolean-destination scatter_add call that the
claim says must raise UnsupportedType instead returns the destination
unchanged. -/
theorem C1_witness :
    scatter_add_ { sizes := [2], strides := [1], data := [0, 0], dtype := .boolean } 0
      { sizes := [1], strides := [1], data := [0], dtype := .int64 }
      { sizes := [2], strides := [1], data := [1, 1], dtype := .boolean }
    = .ok { sizes := [2], strides := [1], data := [0, 0], dtype := .boolean } :=
  C1_scatterAdd_nonNumeric_silently_succeeds _ _ _ _ (by decide)

/-- C9 counterexample: the claim says an axis equal to the destination's
rank raises InvalidArgument, but the legacy rank helpers count a
0-dimensional tensor as 1-dimensional, so scatter on a 0-dimensional
destination with axis 0 (= its rank) is accepted and performs the write. -/
theorem C9_counterexample_scalar_axis_accepted :
    scatter_ { sizes := [], strides := [], data := [5], dtype := .float32 } 0
      { sizes := [], strides := [], data := [0], dtype := .int64 }
      { sizes := [], strides := [], data := [7], dtype := .float32 }
    = .ok { sizes := [], strides := [], data := [7], dtype := .float32 } := rfl

/-- C9 amended: with rank measured by the legacy convention (a
0-dimensional tensor counts as rank 1), a negative axis or an axis at or
beyond the destination's rank makes every operation return InvalidArgument
(for scatter_add, on a numeric element type), and a gather whose index and
source ranks differ returns InvalidArgument; every such call returns an
error and no destination tensor, so nothing is mutated. -/
theorem C9_amended_validation_rejects :
    (∀ (out self index : Tensor) (dim : Int),
        dim < 0 ∨ (nDimensionLegacyNoScalars out : Int) ≤ dim →
        gather_out out self dim index = .error .invalidArgument)
    ∧ (∀ (out self index : Tensor) (dim : Int),
        nDimensionLegacyNoScalars index ≠ nDimensionLegacyNoScalars self →
        gather_out out self dim index = .error .invalidArgument)
    ∧ (∀ (self index src : Tensor) (dim : Int),
        dim < 0 ∨ (nDimensionLegacyNoScalars self : Int) ≤ dim →
        scatter_ self dim index src = .error .invalidArgument)
    ∧ (∀ (self index : Tensor) (value : Val) (dim : Int),
        dim < 0 ∨ (nDimensionLegacyNoScalars self : Int) ≤ dim →
        scatter_fill_ self dim index value = .error .invalidArgument)
    ∧ (∀ (self index src : Tensor) (dim : Int),
        (IS_FLOAT32 self.dtype || IS_INT self.dtype) = true →
        dim < 0 ∨ (nDimensionLegacyNoScalars self : Int) ≤ dim →
        scatter_add_ self dim index src = .error .invalidArgument) := by
  refine ⟨?_, ?_, ?_, ?_, ?_⟩
  · intro out self index dim h
    have hcond : ¬ (0 ≤ dim ∧ dim < (nDimensionLegacyNoScalars out : Int)) := by omega
    by_cases h1 : nDimensionLegacyNoScalars index = nDimensionLegacyNoScalars self
    · by_cases h2 : nDimensionLegacyNoScalars index = nDimensionLegacyNoScalars out
      · simp [gather_out, GatherImpl, h1, h2, hcond]
      · have h2s : ¬ nDimensionLegacyNoScalars self = nDimensionLegacyNoScalars out := by
          rw [← h1]; exact h2
        simp [gather_out, GatherImpl, h1, h2s]
    · simp [gather_out, GatherImpl, h1]
  · intro out self index dim h
    simp [gather_out, GatherImpl, h]
  · intro self index src dim h
    have hcond : ¬ (0 ≤ dim ∧ dim < (nDimensionLegacyNoScalars self : Int)) := by omega
    simp [scatter_, ScatterImpl, hcond]
  · intro self index value dim h
    have hcond : ¬ (0 ≤ dim ∧ dim < (nDimensionLegacyNoScalars self : Int)) := by omega
    simp [scatter_fill_, ScatterFillImpl, hcond]
  · intro self index src dim hnum h
    have hcond : ¬ (0 ≤ dim ∧ dim < (nDimensionLegacyNoScalars self : Int)) := by omega
    simp [scatter_add_, ScatterAddImpl, hnum, hcond]

/-- C9 witness: concrete rejected calls for each conjunct of the amended
claim. -/
theorem C9_witness :
    gather_out { sizes := [2], strides := [1], data := [0, 0], dtype := .float32 }
        { sizes := [2], strides := [1], data := [1, 2], dtype := .float32 } 2
        { sizes := [2], strides := [1], data := [0, 0], dtype := .int64 }
      = .error .invalidArgument
    ∧ gather_out { sizes := [2], strides := [1], data := [0, 0], dtype := .float32 }
        { sizes := [2], strides := [1], data := [1, 2], dtype := .float32 } 0
        { sizes := [2, 2], strides := [2, 1], data := [0, 0, 0, 0], dtype := .int64 }
      = .error .invalidArgument
    ∧ scatter_ { sizes := [2], strides := [1], data := [1, 2], dtype := .float32 } (-1)
        { sizes := [1], strides := [1], data := [0], dtype := .int64 }
        { sizes := [2], strides := [1], data := [3, 4], dtype := .float32 }
      = .error .invalidArgument
    ∧ scatter_fill_ { sizes := [2], strides := [1], data := [1, 2], dtype := .float32 } 2
        { sizes := [1], strides := [1], data := [0], dtype := .int64 } 9
      = .error .invalidArgument
    ∧ scatter_add_ { sizes := [2], strides := [1], data := [1, 2], dtype := .int32 } 7
        { sizes := [1], strides := [1], data := [0], dtype := .int64 }
        { sizes := [2], strides := [1], data := [3, 4], dtype := .int32 }
      = .error .invalidArgument := by
  refine ⟨?_, ?_, ?_, ?_, ?_⟩
  · exact C9_amended_validation_rejects.1 _ _ _ _ (by decide)
  · exact C9_amended_validation_rejects.2.1 _ _ _ _ (by decide)
  · exact C9_amended_validation_rejects.2.2.1 _ _ _ _ (by decide)
  · exact C9_amended_validation_rejects.2.2.2.1 _ _ _ _ (by decide)
  · exact C9_amended_validation_rejects.2.2.2.2 _ _ _ _ (by decide) (by decide)

/-- C4 counterexample: the claim says every scatter call with a 0-element
index tensor is a no-op with no error, but the axis-bounds check runs before
the empty-index short-circuit, so an out-of-range axis raises
InvalidArgument even with an empty index. -/
theorem C4_counterexample_empty_index_bad_axis_errors :
    scatter_ { sizes := [2], strides := [1], data := [1, 2], dtype := .float32 } 5
      { sizes := [0], strides := [1], data := [], dtype := .int64 }
      { sizes := [2], strides := [1], data := [3, 4], dtype := .float32 }
    = .error .invalidArgument := rfl

/-- C4 amended: every scatter, scatter_fill or scatter_add call with a
0-element index tensor that also passes the checks preceding the
short-circuit (axis in range, legacy-rank compatibility) is a no-op: the
destination is returned with all its elements unchanged and no error is
raised (for scatter_add the rank hypothesis is only needed on numeric
element types; the non-numeric overload returns the destination unchanged
regardless). -/
theorem C4_amended_empty_index_noop :
    (∀ (self index src : Tensor) (dim : Int),
        numel index = 0 → 0 ≤ dim → dim < (nDimensionLegacyNoScalars self : Int) →
        nDimensionLegacyNoScalars src = nDimensionLegacyNoScalars self →
        scatter_ self dim index src = .ok self)
    ∧ (∀ (self index : Tensor) (value : Val) (dim : Int),
        numel index = 0 → 0 ≤ dim → dim < (nDimensionLegacyNoScalars self : Int) →
        scatter_fill_ self dim index value = .ok self)
    ∧ (∀ (self index src : Tensor) (dim : Int),
        numel index = 0 → 0 ≤ dim → dim < (nDimensionLegacyNoScalars self : Int) →
        nDimensionLegacyNoScalars src = nDimensionLegacyNoScalars self →
        scatter_add_ self dim index src = .ok self) := by
  refine ⟨?_, ?_, ?_⟩
  · intro self index src dim h0 hd1 hd2 hr
    have hall : nDimensionLegacyAll index = 0 := by simp [nDimensionLegacyAll, h0]
    have hcond : 0 ≤ dim ∧ dim < (nDimensionLegacyNoScalars self : Int) := ⟨hd1, hd2⟩
    simp [scatter_, ScatterImpl, hall, hcond, hr]
  · intro self index value dim h0 hd1 hd2
    have hall : nDimensionLegacyAll index = 0 := by simp [nDimensionLegacyAll, h0]
    have hcond : 0 ≤ dim ∧ dim < (nDimensionLegacyNoScalars self : Int) := ⟨hd1, hd2⟩
    simp [scatter_fill_, ScatterFillImpl, hall, hcond]
  · intro self index src dim h0 hd1 hd2 hr
    have hall : nDimensionLegacyAll index = 0 := by simp [nDimensionLegacyAll, h0]
    have hcond : 0 ≤ dim ∧ dim < (nDimensionLegacyNoScalars self : Int) := ⟨hd1, hd2⟩
    by_cases hnum : (IS_FLOAT32 self.dtype || IS_INT self.dtype) = true
    · simp [scatter_add_, ScatterAddImpl, hnum, hall, hcond, hr]
    · simp [scatter_add_, ScatterAddNonNumeric, scatterAddFallbackCheckCond, hnum]

/-- C4 witness: concrete empty-index no-op calls for each of the three
operations. -/
theorem C4_witness :
    scatter_ { sizes := [2], strides := [1], data := [1, 2], dtype := .float32 } 0
        { sizes := [0], strides := [1], data := [], dtype := .int64 }
        { sizes := [2], strides := [1], data := [3, 4], dtype := .float32 }
      = .ok { sizes := [2], strides := [1], data := [1, 2], dtype := .float32 }
    ∧ scatter_fill_ { sizes := [2], strides := [1], data := [1, 2], dtype := .float32 } 0
        { sizes := [0], strides := [1], data := [], dtype := .int64 } 9
      = .ok { sizes := [2], strides := [1], data := [1, 2], dtype := .float32 }
    ∧ scatter_add_ { sizes := [2], strides := [1], data := [1, 2], dtype := .int32 } 0
        { sizes := [0], strides := [1], data := [], dtype := .int64 }
        { sizes := [2], strides := [1], data := [3, 4], dtype := .int32 }
      = .ok { sizes := [2], strides := [1], data := [1, 2], dtype := .int32 } := by
  refine ⟨?_, ?_, ?_⟩
  · exact C4_amended_empty_index_noop.1 _ _ _ _ (by decide) (by decide) (by decide) (by decide)
  · exact C4_amended_empty_index_noop.2.1 _ _ _ _ (by decide) (by decide) (by decide)
  · exact C4_amended_empty_index_noop.2.2 _ _ _ _ (by decide) (by decide) (by decide) (by decide)

/-- C10 counterexample: the claim quantifies over every scatter_add call,
but a scatter_add on a non-numeric element type (here float64) with an
empty index and an out-of-range axis raises nothing at all: SFINAE routes
the call to the fallback overload, whose TORCH_CHECK passes its message
string as a truthy condition, and the destination is returned unchanged —
no InvalidArgument ever fires. -/
theorem C10_counterexample_nonNumeric_bad_axis_accepted :
    scatter_add_ { sizes := [2], strides := [1], data := [1, 2], dtype := .float64 } 5
      { sizes := [0], strides := [1], data := [], dtype := .int64 }
      { sizes := [2], strides := [1], data := [3, 4], dtype := .float64 }
    = .ok { sizes := [2], strides := [1], data := [1, 2], dtype := .float64 } := rfl

/-- C10 amended: for every scatter and scatter_fill call, and for every
scatter_add call on a numeric element type (non-numeric scatter_add calls
never raise at all — the TORCH_CHECK slip recorded with C1), the axis-bounds
check is performed before the empty-index short-circuit (an out-of-range
axis returns InvalidArgument even when the index tensor is empty), while the
off-axis size comparisons are skipped when the index tensor is empty (an
otherwise valid empty-index call returns the unchanged destination with no
size hypotheses at all, even when the index's recorded sizes would violate
them). -/
theorem C10_axis_check_precedes_empty_short_circuit :
    (∀ (self index src : Tensor) (dim : Int),
        numel index = 0 → (dim < 0 ∨ (nDimensionLegacyNoScalars self : Int) ≤ dim) →
        scatter_ self dim index src = .error .invalidArgument)
    ∧ (∀ (self index : Tensor) (value : Val) (dim : Int),
        numel index = 0 → (dim < 0 ∨ (nDimensionLegacyNoScalars self : Int) ≤ dim) →
        scatter_fill_ self dim index value = .error .invalidArgument)
    ∧ (∀ (self index src : Tensor) (dim : Int),
        (IS_FLOAT32 self.dtype || IS_INT self.dtype) = true →
        numel index = 0 → (dim < 0 ∨ (nDimensionLegacyNoScalars self : Int) ≤ dim) →
        scatter_add_ self dim index src = .error .invalidArgument)
    ∧ (∀ (self index src : Tensor) (dim : Int),
        numel index = 0 → 0 ≤ dim → dim < (nDimensionLegacyNoScalars self : Int) →
        nDimensionLegacyNoScalars src = nDimensionLegacyNoScalars self →
        scatter_ self dim index src = .ok self) := by
  refine ⟨?_, ?_, ?_, ?_⟩
  · intro self index src dim _ h
    have hcond : ¬ (0 ≤ dim ∧ dim < (nDimensionLegacyNoScalars self : Int)) := by omega
    simp [scatter_, ScatterImpl, hcond]
  · intro self index value dim _ h
    have hcond : ¬ (0 ≤ dim ∧ dim < (nDimensionLegacyNoScalars self : Int)) := by omega
    simp [scatter_fill_, ScatterFillImpl, hcond]
  · intro self index src dim hnum _ h
    have hcond : ¬ (0 ≤ dim ∧ dim < (nDimensionLegacyNoScalars self : Int)) := by omega
    simp [scatter_add_, ScatterAddImpl, hnum, hcond]
  · intro self index src dim h0 hd1 hd2 hr
    have hall : nDimensionLegacyAll index = 0 := by simp [nDimensionLegacyAll, h0]
    have hcond : 0 ≤ dim ∧ dim < (nDimensionLegacyNoScalars self : Int) := ⟨hd1, hd2⟩
    simp [scatter_, ScatterImpl, hall, hcond, hr]

/-- C10 witness: with an empty index, a bad axis is still rejected, and the
size comparisons really are skipped: an empty index whose recorded size 5
exceeds the destination's off-axis size 3 is accepted as a no-op. -/
theorem C10_witness :
    scatter_ { sizes := [2, 3], strides := [3, 1], data := [0, 0, 0, 0, 0, 0], dtype := .float32 } 9
        { sizes := [0, 5], strides := [5, 1], data := [], dtype := .int64 }
        { sizes := [2, 3], strides := [3, 1], data := [1, 1, 1, 1, 1, 1], dtype := .float32 }
      = .error .invalidArgument
    ∧ scatter_fill_ { sizes := [2], strides := [1], data := [1, 2], dtype := .float32 } (-3)
        { sizes := [0], strides := [1], data := [], dtype := .int64 } 8
      = .error .invalidArgument
    ∧ scatter_add_ { sizes := [2], strides := [1], data := [1, 2], dtype := .float32 } 2
        { sizes := [0], strides := [1], data := [], dtype := .int64 }
        { sizes := [2], strides := [1], data := [3, 4], dtype := .float32 }
      = .error .invalidArgument
    ∧ scatter_ { sizes := [2, 3], strides := [3, 1], data := [0, 0, 0, 0, 0, 0], dtype := .float32 } 0
        { sizes := [0, 5], strides := [5, 1], data := [], dtype := .int64 }
        { sizes := [2, 3], strides := [3, 1], data := [1, 1, 1, 1, 1, 1], dtype := .float32 }
      = .ok { sizes := [2, 3], strides := [3, 1], data := [0, 0, 0, 0, 0, 0], dtype := .float32 } := by
  refine ⟨?_, ?_, ?_, ?_⟩
  · exact C10_axis_check_precedes_empty_short_circuit.1 _ _ _ _ (by decide) (by decide)
  · exact C10_axis_check_precedes_empty_short_circuit.2.1 _ _ _ _ (by decide) (by decide)
  · exact C10_axis_check_precedes_empty_short_circuit.2.2.1 _ _ _ _ (by decide) (by decide) (by decide)
  · exact C10_axis_check_precedes_empty_short_circuit.2.2.2 _ _ _ _ (by decide) (by decide) (by decide) (by decide)

/-! ### Dims-only reductions (width unchanged), for the rank-dispatch claim -/

lemma gatherKernel_dims_eq (w : Nat) (dims : Int) (tensor src index : Tensor)
    (dim total : Nat)
    (hc : ∀ l, coordCompute dims index.sizes l = unflatten index.sizes l) :
    THDPCPPTensor_gatherKernel w dims tensor src index dim total
      = THDPCPPTensor_gatherKernel w (-1) tensor src index dim total := by
  unfold THDPCPPTensor_gatherKernel
  apply foldl_ext
  intro d l _
  simp only [indexedWrite, replacedCoord, indexValAt, hc, coordCompute_neg_one]

lemma scatterKernel_dims_eq (w : Nat) (dims : Int) (tensor src index : Tensor)
    (dim total : Nat)
    (hc : ∀ l, coordCompute dims index.sizes l = unflatten index.sizes l) :
    THSyclTensor_scatterKernel w dims tensor src index dim total
      = THSyclTensor_scatterKernel w (-1) tensor src index dim total := by
  unfold THSyclTensor_scatterKernel
  apply foldl_ext
  intro d l _
  simp only [indexedWrite, replacedCoord, indexValAt, hc, coordCompute_neg_one]

lemma scatterFillKernel_dims_eq (w : Nat) (dims : Int) (tensor index : Tensor)
    (value : Val) (dim total : Nat)
    (hc : ∀ l, coordCompute dims index.sizes l = unflatten index.sizes l) :
    THSyclTensor_scatterFillKernel w dims tensor index value dim total
      = THSyclTensor_scatterFillKernel w (-1) tensor index value dim total := by
  unfold THSyclTensor_scatterFillKernel
  apply foldl_ext
  intro d l _
  simp only [indexedWrite, replacedCoord, indexValAt, hc, coordCompute_neg_one]

lemma scatterAddKernel_dims_eq (w : Nat) (dims : Int) (tensor src index : Tensor)
    (dim total : Nat)
    (hc : ∀ l, coordCompute dims index.sizes l = unflatten index.sizes l) :
    THSyclTensor_scatterAddKernel w dims tensor src index dim total
      = THSyclTensor_scatterAddKernel w (-1) tensor src index dim total := by
  unfold THSyclTensor_scatterAddKernel THSyclTensor_scatterAddKernelOrd
  apply foldl_ext
  intro d l _
  simp only [indexedWrite, replacedCoord, indexValAt, hc, coordCompute_neg_one]

lemma coordCompute_of_dims123 (dims : Int) (sizes : List Nat)
    (hd : dims = 1 ∨ dims = 2 ∨ dims = 3) (hlen : (sizes.length : Int) = dims) :
    ∀ l, coordCompute dims sizes l = unflatten sizes l := by
  rcases hd with rfl | rfl | rfl
  · exact coordCompute_one sizes (by omega)
  · exact coordCompute_two sizes (by omega)
  · exact coordCompute_three sizes (by omega)

/-! ### Claim theorems: refinement equivalences -/

/-- C6: the narrow (32-bit) and wide (64-bit) instantiations of each of the
four kernels produce identical results whenever the index tensor's element
count fits in an unsigned 32-bit integer — which the selection condition
guarantees, since it is exactly the conjunction "every participating
tensor's element count is representable in 32 bits" (first conjunct).  The
address width enters the modelled kernels through the `(TYPE)totalElements`
cast visible in the source's `RUN` macros. -/
theorem C6_narrow_wide_equivalence :
    (∀ work src index : Tensor,
        (canUse32BitIndexMath work && canUse32BitIndexMath src &&
          canUse32BitIndexMath index) = true
        ↔ numel work < 2 ^ 32 ∧ numel src < 2 ^ 32 ∧ numel index < 2 ^ 32)
    ∧ (∀ (dims : Int) (tensor src index : Tensor) (dim total : Nat),
        total < 2 ^ 32 →
        THDPCPPTensor_gatherKernel 32 dims tensor src index dim total
          = THDPCPPTensor_gatherKernel 64 dims tensor src index dim total)
    ∧ (∀ (dims : Int) (tensor src index : Tensor) (dim total : Nat),
        total < 2 ^ 32 →
        THSyclTensor_scatterKernel 32 dims tensor src index dim total
          = THSyclTensor_scatterKernel 64 dims tensor src index dim total)
    ∧ (∀ (dims : Int) (tensor index : Tensor) (value : Val) (dim total : Nat),
        total < 2 ^ 32 →
        THSyclTensor_scatterFillKernel 32 dims tensor index value dim total
          = THSyclTensor_scatterFillKernel 64 dims tensor index value dim total)
    ∧ (∀ (dims : Int) (tensor src index : Tensor) (dim total : Nat),
        total < 2 ^ 32 →
        THSyclTensor_scatterAddKernel 32 dims tensor src index dim total
          = THSyclTensor_scatterAddKernel 64 dims tensor src index dim total) := by
  have h64 : (2 : Nat) ^ 32 < 2 ^ 64 := by norm_num
  refine ⟨?_, ?_, ?_, ?_, ?_⟩
  · intro work src index
    simp [canUse32BitIndexMath, Bool.and_eq_true, and_assoc]
  · intro dims tensor src index dim total h
    unfold THDPCPPTensor_gatherKernel
    rw [Nat.mod_eq_of_lt h, Nat.mod_eq_of_lt (by omega)]
  · intro dims tensor src index dim total h
    unfold THSyclTensor_scatterKernel
    rw [Nat.mod_eq_of_lt h, Nat.mod_eq_of_lt (by omega)]
  · intro dims tensor index value dim total h
    unfold THSyclTensor_scatterFillKernel
    rw [Nat.mod_eq_of_lt h, Nat.mod_eq_of_lt (by omega)]
  · intro dims tensor src index dim total h
    unfold THSyclTensor_scatterAddKernel THSyclTensor_scatterAddKernelOrd
    rw [Nat.mod_eq_of_lt h, Nat.mod_eq_of_lt (by omega)]

/-- C6 witness: a concrete call on which narrow and wide agree, plus the
selection condition evaluated on concrete tensors. -/
theorem C6_witness :
    ((canUse32BitIndexMath { sizes := [2], strides := [1], data := [0, 0], dtype := .float32 }
        && canUse32BitIndexMath { sizes := [2], strides := [1], data := [1, 1], dtype := .float32 }
        && canUse32BitIndexMath { sizes := [1], strides := [1], data := [0], dtype := .int64 }) = true
      ↔ numel { sizes := [2], strides := [1], data := [0, 0], dtype := .float32 } < 2 ^ 32
        ∧ numel { sizes := [2], strides := [1], data := [1, 1], dtype := .float32 } < 2 ^ 32
        ∧ numel { sizes := [1], strides := [1], data := [0], dtype := .int64 } < 2 ^ 32)
    ∧ THSyclTensor_scatterKernel 32 1
        { sizes := [2], strides := [1], data := [0, 0], dtype := .float32 }
        { sizes := [2], strides := [1], data := [1, 1], dtype := .float32 }
        { sizes := [1], strides := [1], data := [0], dtype := .int64 } 0 1
      = THSyclTensor_scatterKernel 64 1
        { sizes := [2], strides := [1], data := [0, 0], dtype := .float32 }
        { sizes := [2], strides := [1], data := [1, 1], dtype := .float32 }
        { sizes := [1], strides := [1], data := [0], dtype := .int64 } 0 1 :=
  ⟨C6_narrow_wide_equivalence.1 _ _ _,
   C6_narrow_wide_equivalence.2.2.1 1 _ _ _ 0 1 (by norm_num)⟩

/-- C7: for each of the four kernels, the rank-specialised instantiation
(DIMS = 1, 2 or 3, selected exactly when the index tensor's rank is 1, 2 or
3) produces the same result as the generic instantiation (DIMS = -1) on the
same input, for either address width. -/
theorem C7_rank_specialisation_equivalence :
    (∀ (w : Nat) (dims : Int) (tensor src index : Tensor) (dim total : Nat),
        dims = 1 ∨ dims = 2 ∨ dims = 3 → (index.sizes.length : Int) = dims →
        THDPCPPTensor_gatherKernel w dims tensor src index dim total
          = THDPCPPTensor_gatherKernel w (-1) tensor src index dim total)
    ∧ (∀ (w : Nat) (dims : Int) (tensor src index : Tensor) (dim total : Nat),
        dims = 1 ∨ dims = 2 ∨ dims = 3 → (index.sizes.length : Int) = dims →
        THSyclTensor_scatterKernel w dims tensor src index dim total
          = THSyclTensor_scatterKernel w (-1) tensor src index dim total)
    ∧ (∀ (w : Nat) (dims : Int) (tensor index : Tensor) (value : Val) (dim total : Nat),
        dims = 1 ∨ dims = 2 ∨ dims = 3 → (index.sizes.length : Int) = dims →
        THSyclTensor_scatterFillKernel w dims tensor index value dim total
          = THSyclTensor_scatterFillKernel w (-1) tensor index value dim total)
    ∧ (∀ (w : Nat) (dims : Int) (tensor src index : Tensor) (dim total : Nat),
        dims = 1 ∨ dims = 2 ∨ dims = 3 → (index.sizes.length : Int) = dims →
        THSyclTensor_scatterAddKernel w dims tensor src index dim total
          = THSyclTensor_scatterAddKernel w (-1) tensor src index dim total) := by
  refine ⟨?_, ?_, ?_, ?_⟩
  · intro w dims tensor src index dim total hd hlen
    exact gatherKernel_dims_eq w dims tensor src index dim total
      (coordCompute_of_dims123 dims index.sizes hd hlen)
  · intro w dims tensor src index dim total hd hlen
    exact scatterKernel_dims_eq w dims tensor src index dim total
      (coordCompute_of_dims123 dims index.sizes hd hlen)
  · intro w dims tensor index value dim total hd hlen
    exact scatterFillKernel_dims_eq w dims tensor index value dim total
      (coordCompute_of_dims123 dims index.sizes hd hlen)
  · intro w dims tensor src index dim total hd hlen
    exact scatterAddKernel_dims_eq w dims tensor src index dim total
      (coordCompute_of_dims123 dims index.sizes hd hlen)

/-- C7 witness: the rank-1-specialised and generic gather kernels agree on a
concrete input. -/
theorem C7_witness :
    THDPCPPTensor_gatherKernel 32 1
      { sizes := [2], strides := [1], data := [0, 0], dtype := .float32 }
      { sizes := [2], strides := [1], data := [10, 20], dtype := .float32 }
      { sizes := [2], strides := [1], data := [1, 0], dtype := .int64 } 0 2
    = THDPCPPTensor_gatherKernel 32 (-1)
      { sizes := [2], strides := [1], data := [0, 0], dtype := .float32 }
      { sizes := [2], strides := [1], data := [10, 20], dtype := .float32 }
      { sizes := [2], strides := [1], data := [1, 0], dtype := .int64 } 0 2 :=
  C7_rank_specialisation_equivalence.1 32 1 _ _ _ 0 2 (Or.inl rfl) (by decide)

/-! ### Reaching the kernel: validation-success lemmas -/

lemma GatherImpl_ok (tensor src index : Tensor) (dim : Int)
    (e1 : nDimensionLegacyNoScalars index = nDimensionLegacyNoScalars src)
    (e2 : nDimensionLegacyNoScalars index = nDimensionLegacyNoScalars tensor)
    (e3 : 0 ≤ dim ∧ dim < (nDimensionLegacyNoScalars tensor : Int))
    (e5 : ((List.range (nDimensionLegacyNoScalars tensor)).all fun d =>
      ((d : Int) == dim) ||
        (sizeLegacyNoScalars tensor d == sizeLegacyNoScalars src d)) = true)
    (e6 : nDimensionLegacyNoScalars tensor ≤ MAX_DPCPPTORCH_DIMS) :
    GatherImpl tensor src dim index
      = .ok (runGuarded (gatherDispatch src index dim (numel index)) tensor).1 := by
  unfold GatherImpl
  rw [if_neg (not_not_intro e1), if_neg (not_not_intro e2),
    if_neg (not_not_intro e3), if_neg (not_not_intro (e1.symm.trans e2)),
    if_neg (not_not_intro e5), if_neg (not_not_intro e6)]

lemma ScatterImpl_ok (tensor src index : Tensor) (dim : Int)
    (hne : ¬ nDimensionLegacyAll index = 0)
    (e1 : 0 ≤ dim ∧ dim < (nDimensionLegacyNoScalars tensor : Int))
    (e2 : nDimensionLegacyNoScalars index = nDimensionLegacyNoScalars src)
    (e3 : nDimensionLegacyNoScalars src = nDimensionLegacyNoScalars tensor)
    (e5 : ((List.range (nDimensionLegacyNoScalars tensor)).all fun d =>
      (((d : Int) == dim) ||
        decide (sizeLegacyNoScalars index d ≤ sizeLegacyNoScalars tensor d)) &&
      decide (sizeLegacyNoScalars index d ≤ sizeLegacyNoScalars src d)) = true)
    (e6 : tensor.sizes.length ≤ MAX_DPCPPTORCH_DIMS) :
    ScatterImpl tensor dim index src
      = .ok (runGuarded (scatterDispatch src index dim (numel index)) tensor).1 := by
  unfold ScatterImpl
  rw [if_neg (not_not_intro e1), if_neg (not_not_intro (Or.inr e2)),
    if_neg (not_not_intro e3), if_neg hne,
    if_neg (not_not_intro e5), if_neg (not_not_intro e6)]

lemma ScatterFillImpl_ok (tensor index : Tensor) (value : Val) (dim : Int)
    (hne : ¬ nDimensionLegacyAll index = 0)
    (e1 : 0 ≤ dim ∧ dim < (nDimensionLegacyNoScalars tensor : Int))
    (e2 : nDimensionLegacyNoScalars index = nDimensionLegacyNoScalars tensor)
    (e5 : ((List.range (nDimensionLegacyNoScalars tensor)).all fun d =>
      ((d : Int) == dim) ||
        decide (sizeLegacyNoScalars index d ≤ sizeLegacyNoScalars tensor d)) = true)
    (e6 : tensor.sizes.length ≤ MAX_DPCPPTORCH_DIMS) :
    ScatterFillImpl tensor dim index value
      = .ok (runGuarded (scatterFillDispatch index value dim (numel index)) tensor).1 := by
  unfold ScatterFillImpl
  rw [if_neg (not_not_intro e1), if_neg (not_not_intro (Or.inr e2)),
    if_neg hne, if_neg (not_not_intro e5), if_neg (not_not_intro e6)]

lemma ScatterAddImpl_ok (tensor src index : Tensor) (dim : Int)
    (hne : ¬ nDimensionLegacyAll index = 0)
    (e1 : 0 ≤ dim ∧ dim < (nDimensionLegacyNoScalars tensor : Int))
    (e2 : nDimensionLegacyNoScalars index = nDimensionLegacyNoScalars src)
    (e3 : nDimensionLegacyNoScalars src = nDimensionLegacyNoScalars tensor)
    (e5 : ((List.range (nDimensionLegacyNoScalars tensor)).all fun d =>
      (((d : Int) == dim) ||
        decide (sizeLegacyNoScalars index d ≤ sizeLegacyNoScalars tensor d)) &&
      decide (sizeLegacyNoScalars index d ≤ sizeLegacyNoScalars src d)) = true)
    (e6 : tensor.sizes.length ≤ MAX_DPCPPTORCH_DIMS) :
    ScatterAddImpl tensor dim index src
      = .ok (runGuarded (scatterAddDispatch src index dim (numel index)) tensor).1 := by
  unfold ScatterAddImpl
  rw [if_neg (not_not_intro e1), if_neg (not_not_intro (Or.inr e2)),
    if_neg (not_not_intro e3), if_neg hne,
    if_neg (not_not_intro e5), if_neg (not_not_intro e6)]

/-! ### Claim theorem: the gather contract -/

/-- C2: for every valid input (gather shape invariants, axis in range,
in-range index values, ranks within the supported maximum), `gather`'s
output has exactly the index tensor's shape, and at every coordinate `c` of
that shape the output element equals the source element at `c` with its
axis-component replaced by the index value at `c`. -/
theorem C2_gather_contract (self index : Tensor) (dim : Int)
    (hr : index.sizes.length = self.sizes.length)
    (hrpos : 0 < self.sizes.length)
    (hd1 : 0 ≤ dim) (hd2 : dim < (self.sizes.length : Int))
    (hsz : ∀ d, d < self.sizes.length → (d : Int) ≠ dim →
        index.sizes.getD d 1 = self.sizes.getD d 1)
    (hmax : self.sizes.length ≤ MAX_DPCPPTORCH_DIMS)
    (h64 : numel index < 2 ^ 64)
    (hiv : ∀ c ∈ allCoords index.sizes,
        0 ≤ readTensor index c ∧
        (readTensor index c).toNat < self.sizes.getD dim.toNat 1) :
    ∃ out, gather self dim index = .ok out ∧ out.sizes = index.sizes ∧
      ∀ c, validCoord c index.sizes = true →
        readTensor out c
          = readTensor self (c.set dim.toNat (readTensor index c).toNat) := by
  have hout0 : gather self dim index
      = gather_out
          { sizes := index.sizes
            strides := contigStrides index.sizes
            data := List.replicate (numel index) 0
            dtype := self.dtype }
          self dim index := rfl
  set out0 : Tensor :=
    { sizes := index.sizes
      strides := contigStrides index.sizes
      data := List.replicate (numel index) 0
      dtype := self.dtype } with hdef
  have hndIdx : nDimensionLegacyNoScalars index = self.sizes.length := by
    simp only [nDimensionLegacyNoScalars, hr]
    omega
  have hndSelf : nDimensionLegacyNoScalars self = self.sizes.length := by
    simp only [nDimensionLegacyNoScalars]
    omega
  have hndOut : nDimensionLegacyNoScalars out0 = self.sizes.length := by
    simp only [nDimensionLegacyNoScalars, hdef, hr]
    omega
  have hne : index.sizes.isEmpty = false := by
    cases hs : index.sizes with
    | nil => rw [hs] at hr; simp at hr; omega
    | cons a as => rfl
  have hsizeOut : ∀ d, sizeLegacyNoScalars out0 d = index.sizes.getD d 1 := by
    intro d
    simp only [sizeLegacyNoScalars, hdef, hne]
    rfl
  have hsizeSelf : ∀ d, sizeLegacyNoScalars self d = self.sizes.getD d 1 := by
    intro d
    have : self.sizes.isEmpty = false := by
      cases hs : self.sizes with
      | nil => rw [hs] at hrpos; simp at hrpos
      | cons a as => rfl
    simp only [sizeLegacyNoScalars, this]
    rfl
  have hall : ((List.range (nDimensionLegacyNoScalars out0)).all fun d =>
      ((d : Int) == dim) ||
        (sizeLegacyNoScalars out0 d == sizeLegacyNoScalars self d)) = true := by
    rw [List.all_eq_true]
    intro d hd
    rw [List.mem_range, hndOut] at hd
    by_cases hdd : (d : Int) = dim
    · simp [hdd]
    · have := hsz d hd hdd
      rw [hsizeOut, hsizeSelf, this]
      simp [hdd]
  have hok : GatherImpl out0 self dim index
      = .ok (runGuarded (gatherDispatch self index dim (numel index)) out0).1 :=
    GatherImpl_ok out0 self index dim (hndIdx.trans hndSelf.symm)
      (hndIdx.trans hndOut.symm) ⟨hd1, by rw [hndOut]; exact hd2⟩ hall
      (by rw [hndOut]; exact hmax)
  have hnoov : maybeOverlappingIndices out0 = false :=
    maybeOverlapping_contig index.sizes (List.replicate (numel index) 0) self.dtype
  have hguard : (runGuarded (gatherDispatch self index dim (numel index)) out0).1
      = { out0 with data := gatherDispatch self index dim (numel index) out0 } := by
    rw [runGuarded, if_neg (by simp [hnoov])]
  refine ⟨{ out0 with data := gatherDispatch self index dim (numel index) out0 },
    by rw [hout0, gather_out, hok, hguard], rfl, ?_⟩
  intro c hc
  have hlt := offsetOf_lt_prod c index.sizes hc
  have hpos : 0 < numel index := by
    have : offsetOf (contigStrides index.sizes) c < numel index := hlt
    omega
  have hcanon := gatherDispatch_canon self index dim h64 out0
  rw [if_pos hpos] at hcanon
  have hfold : THDPCPPTensor_gatherKernel 64 (-1) out0 self index dim.toNat (numel index)
      = (List.range (numel index)).foldl
          (fun (d : List Val) l => d.set l
            (self.data.getD (offsetOf self.strides (replacedCoord (-1) index dim.toNat l)) 0))
          out0.data := by
    unfold THDPCPPTensor_gatherKernel
    rw [Nat.mod_eq_of_lt h64]
    apply foldl_ext
    intro d l hl
    rw [List.mem_range] at hl
    simp only [indexedWrite]
    congr 1
    rw [coordCompute_neg_one]
    exact offsetOf_contig_unflatten index.sizes l hl
  have hlen : out0.data.length = numel index := by
    simp [hdef]
  have hread : (gatherDispatch self index dim (numel index) out0).getD
      (offsetOf (contigStrides index.sizes) c) 0
      = self.data.getD
          (offsetOf self.strides
            (replacedCoord (-1) index dim.toNat (offsetOf (contigStrides index.sizes) c))) 0 := by
    rw [hcanon, hfold]
    exact foldl_set_range_getD _ (numel index) out0.data _ hlt (by rw [hlen]; exact hlt)
  have hcoord : replacedCoord (-1) index dim.toNat (offsetOf (contigStrides index.sizes) c)
      = c.set dim.toNat (readTensor index c).toNat := by
    unfold replacedCoord indexValAt
    rw [coordCompute_neg_one, unflatten_offsetOf_contig c index.sizes hc]
    rfl
  show ({ out0 with data := gatherDispatch self index dim (numel index) out0 } : Tensor).data.getD
      (offsetOf out0.strides c) 0 = _
  rw [show out0.strides = contigStrides index.sizes from rfl, hread, hcoord]
  rfl

/-- C2 witness: a concrete 2-by-2 gather along axis 0; the output takes the
index tensor's shape and satisfies the gather contract at every coordinate. -/
theorem C2_witness :
    ∃ out, gather { sizes := [2, 2], strides := [2, 1], data := [1, 2, 3, 4], dtype := .float32 } 0
        { sizes := [2, 2], strides := [2, 1], data := [0, 1, 1, 0], dtype := .int64 }
      = .ok out ∧ out.sizes = [2, 2] ∧
      ∀ c, validCoord c ([2, 2] : List Nat) = true →
        readTensor out c
          = readTensor { sizes := [2, 2], strides := [2, 1], data := [1, 2, 3, 4], dtype := .float32 }
              (c.set 0
                (readTensor { sizes := [2, 2], strides := [2, 1], data := [0, 1, 1, 0], dtype := .int64 } c).toNat) :=
  C2_gather_contract _ _ 0 rfl (by decide) (by decide) (by decide)
    (by decide) (by decide) (by decide) (by decide)

/-! ### Coordinate validity of scatter targets, and clone-buffer reads -/

lemma getD_set_self_nat (k : List Nat) (i : Nat) (v : Nat) (h : i < k.length) :
    (k.set i v).getD i 0 = v := by
  simp [List.getD_eq_getElem?_getD, List.getElem?_set_self h]

lemma getD_set_ne_nat (k : List Nat) {i j : Nat} (h : i ≠ j) (v : Nat) :
    (k.set i v).getD j 0 = k.getD j 0 := by
  simp [List.getD_eq_getElem?_getD, List.getElem?_set_ne h]

lemma validCoord_iff : ∀ (c sizes : List Nat),
    validCoord c sizes = true ↔
      (c.length = sizes.length ∧ ∀ d, d < sizes.length → c.getD d 0 < sizes.getD d 1) := by
  intro c
  induction c with
  | nil =>
    intro sizes
    cases sizes with
    | nil => simp [validCoord]
    | cons s rest => simp [validCoord]
  | cons x cs ih =>
    intro sizes
    cases sizes with
    | nil => simp [validCoord]
    | cons s rest =>
      rw [validCoord_cons_iff, ih rest]
      constructor
      · rintro ⟨hx, hlen, hrest⟩
        refine ⟨by simp [hlen], ?_⟩
        intro d hd
        cases d with
        | zero => simpa using hx
        | succ d => simpa using hrest d (by simpa using hd)
      · rintro ⟨hlen, hall⟩
        refine ⟨by simpa using hall 0 (by simp), by simpa using hlen, ?_⟩
        intro d hd
        simpa using hall (d + 1) (by simpa using hd)

lemma validCoord_set_of (k szI szT : List Nat) (dimn v : Nat)
    (hk : validCoord k szI = true) (hlen : szI.length = szT.length)
    (hle : ∀ d, d < szT.length → d ≠ dimn → szI.getD d 1 ≤ szT.getD d 1)
    (hdim : dimn < szT.length) (hv : v < szT.getD dimn 1) :
    validCoord (k.set dimn v) szT = true := by
  rcases (validCoord_iff k szI).mp hk with ⟨hklen, hkall⟩
  rw [validCoord_iff]
  refine ⟨by rw [List.length_set]; omega, ?_⟩
  intro d hd
  by_cases hdd : d = dimn
  · subst hdd
    rw [getD_set_self_nat _ _ _ (by omega)]
    exact hv
  · rw [getD_set_ne_nat _ (fun h => hdd h.symm) _]
    exact lt_of_lt_of_le (hkall d (by omega)) (hle d hd hdd)

lemma contiguousOf_length (t : Tensor) : (contiguousOf t).data.length = t.sizes.prod := by
  simp [contiguousOf, allCoords]

lemma contiguousOf_getD (t : Tensor) (c : List Nat) (hc : validCoord c t.sizes = true) :
    (contiguousOf t).data.getD (offsetOf (contigStrides t.sizes) c) 0
      = t.data.getD (offsetOf t.strides c) 0 := by
  have hlt := offsetOf_lt_prod c t.sizes hc
  rw [contiguousOf, List.getD_eq_getElem?_getD]
  simp only [List.getElem?_map, allCoords, List.getElem?_range, hlt, if_pos,
    Option.map_some', Option.getD_some]
  rw [unflatten_offsetOf_contig c t.sizes hc, List.getD_eq_getElem?_getD]

lemma replacedCoord_neg_one (index : Tensor) (dimn l : Nat) :
    replacedCoord (-1) index dimn l
      = (unflatten index.sizes l).set dimn
          (readTensor index (unflatten index.sizes l)).toNat := by
  unfold replacedCoord indexValAt
  rw [coordCompute_neg_one]
  rfl

lemma runGuarded_sizes (kern : Tensor → List Val) (t : Tensor) :
    (runGuarded kern t).1.sizes = t.sizes := by
  rw [runGuarded]
  split
  · rfl
  · rfl

lemma guarded_frame (mode : WriteMode) (t : Tensor) (tc : Nat → List Nat) (v : Nat → Val)
    (total : Nat) (a : Nat)
    (hvalid : ∀ l, l < total → validCoord (tc l) t.sizes = true)
    (hunt : ∀ l, l < total → offsetOf t.strides (tc l) ≠ a) :
    (runGuarded (fun work => (List.range total).foldl
        (indexedWrite mode work.strides tc v) work.data) t).1.data.getD a 0
      = t.data.getD a 0 := by
  rw [runGuarded]
  split
  next hov =>
    simp only [copyBackInto]
    apply foldl_set_const
    · intro c hcmem hca
      have hc := mem_allCoords_iff.mp hcmem
      show ((List.range total).foldl
          (indexedWrite mode (contigStrides t.sizes) tc v) (contiguousOf t).data).getD
          (offsetOf (contigStrides t.sizes) c) 0 = t.data.getD a 0
      rw [foldl_indexedWrite_untouched mode (contigStrides t.sizes) tc v
        (offsetOf (contigStrides t.sizes) c) (List.range total) ?hh (contiguousOf t).data]
      · rw [contiguousOf_getD t c hc, hca]
      case hh =>
        intro l hl heq
        rw [List.mem_range] at hl
        have hceq : tc l = c := offsetOf_contig_inj (hvalid l hl) hc heq
        exact hunt l hl (hceq ▸ hca)
    · rfl
  next hov =>
    show ((List.range total).foldl (indexedWrite mode t.strides tc v) t.data).getD a 0
        = t.data.getD a 0
    refine foldl_indexedWrite_untouched mode t.strides tc v a (List.range total) ?_ t.data
    intro l hl
    rw [List.mem_range] at hl
    exact hunt l hl

/-! ### Claim theorem: the scatter frame property -/

/-- C3: for every valid scatter call, every destination storage position
that is not the address of any scattered target coordinate (of the form `k`
with its axis-component replaced by `index[k]`, for `k` a coordinate of the
index tensor) holds exactly its value from before the call.  This covers
both guard paths: when the destination may alias itself, the contiguous
clone preserves the prior contents, so the copy-back restores every
untouched address. -/
theorem C3_scatter_frame (self index src : Tensor) (dim : Int)
    (hne0 : 0 < numel index)
    (hris : index.sizes.length = src.sizes.length)
    (hrst : src.sizes.length = self.sizes.length)
    (hrpos : 0 < self.sizes.length)
    (hd1 : 0 ≤ dim) (hd2 : dim < (self.sizes.length : Int))
    (hsz1 : ∀ d, d < self.sizes.length → (d : Int) ≠ dim →
        index.sizes.getD d 1 ≤ self.sizes.getD d 1)
    (hsz2 : ∀ d, d < self.sizes.length →
        index.sizes.getD d 1 ≤ src.sizes.getD d 1)
    (hmax : self.sizes.length ≤ MAX_DPCPPTORCH_DIMS)
    (h64 : numel index < 2 ^ 64)
    (hiv : ∀ c ∈ allCoords index.sizes,
        (readTensor index c).toNat < self.sizes.getD dim.toNat 1) :
    ∃ t, scatter_ self dim index src = .ok t ∧ t.sizes = self.sizes ∧
      ∀ a : Nat,
        (∀ k ∈ allCoords index.sizes,
          offsetOf self.strides (k.set dim.toNat (readTensor index k).toNat) ≠ a) →
        t.data.getD a 0 = self.data.getD a 0 := by
  have hlenIS : index.sizes.length = self.sizes.length := hris.trans hrst
  have hndIdx : nDimensionLegacyNoScalars index = self.sizes.length := by
    simp only [nDimensionLegacyNoScalars, hlenIS]
    omega
  have hndSrc : nDimensionLegacyNoScalars src = self.sizes.length := by
    simp only [nDimensionLegacyNoScalars, hrst]
    omega
  have hndSelf : nDimensionLegacyNoScalars self = self.sizes.length := by
    simp only [nDimensionLegacyNoScalars]
    omega
  have hne : ¬ nDimensionLegacyAll index = 0 := by
    simp only [nDimensionLegacyAll]
    rw [if_neg (by omega)]
    omega
  have hsizeIdx : ∀ d, sizeLegacyNoScalars index d = index.sizes.getD d 1 := by
    intro d
    have h : index.sizes.isEmpty = false := by
      cases hs : index.sizes with
      | nil => rw [hs] at hlenIS; simp at hlenIS; omega
      | cons a as => rfl
    simp [sizeLegacyNoScalars, h]
  have hsizeSelf : ∀ d, sizeLegacyNoScalars self d = self.sizes.getD d 1 := by
    intro d
    have h : self.sizes.isEmpty = false := by
      cases hs : self.sizes with
      | nil => rw [hs] at hrpos; simp at hrpos
      | cons a as => rfl
    simp [sizeLegacyNoScalars, h]
  have hsizeSrc : ∀ d, sizeLegacyNoScalars src d = src.sizes.getD d 1 := by
    intro d
    have h : src.sizes.isEmpty = false := by
      cases hs : src.sizes with
      | nil => rw [hs] at hrst; simp at hrst; omega
      | cons a as => rfl
    simp [sizeLegacyNoScalars, h]
  have hall : ((List.range (nDimensionLegacyNoScalars self)).all fun d =>
      (((d : Int) == dim) ||
        decide (sizeLegacyNoScalars index d ≤ sizeLegacyNoScalars self d)) &&
      decide (sizeLegacyNoScalars index d ≤ sizeLegacyNoScalars src d)) = true := by
    rw [List.all_eq_true]
    intro d hd
    rw [List.mem_range, hndSelf] at hd
    rw [Bool.and_eq_true]
    constructor
    · by_cases hdd : (d : Int) = dim
      · simp [hdd]
      · rw [hsizeIdx, hsizeSelf, Bool.or_eq_true]
        exact Or.inr (decide_eq_true (hsz1 d hd hdd))
    · rw [hsizeIdx, hsizeSrc]
      exact decide_eq_true (hsz2 d hd)
  have hok : ScatterImpl self dim index src
      = .ok (runGuarded (scatterDispatch src index dim (numel index)) self).1 :=
    ScatterImpl_ok self src index dim hne ⟨hd1, by rw [hndSelf]; exact hd2⟩
      (hndIdx.trans hndSrc.symm) (hndSrc.trans hndSelf.symm) hall hmax
  have hfun : scatterDispatch src index dim (numel index)
      = fun work =>
          THSyclTensor_scatterKernel 64 (-1) work src index dim.toNat (numel index) := by
    funext work
    rw [scatterDispatch_canon src index dim h64 work, if_pos hne0]
  have hK : (fun work =>
        THSyclTensor_scatterKernel 64 (-1) work src index dim.toNat (numel index))
      = fun work => (List.range (numel index)).foldl
          (indexedWrite .assign work.strides (replacedCoord (-1) index dim.toNat)
            (fun l => src.data.getD
              (offsetOf src.strides (coordCompute (-1) index.sizes l)) 0))
          work.data := by
    funext work
    unfold THSyclTensor_scatterKernel
    rw [Nat.mod_eq_of_lt h64]
  have hTC : ∀ l, l < numel index →
      validCoord (replacedCoord (-1) index dim.toNat l) self.sizes = true := by
    intro l hl
    rw [replacedCoord_neg_one]
    exact validCoord_set_of (unflatten index.sizes l) index.sizes self.sizes dim.toNat _
      (validCoord_unflatten index.sizes l hl) hlenIS
      (fun d hd hdd => hsz1 d hd (fun he => hdd (by omega)))
      (by omega)
      (hiv _ (mem_allCoords_iff.mpr (validCoord_unflatten index.sizes l hl)))
  refine ⟨(runGuarded (scatterDispatch src index dim (numel index)) self).1,
    hok, runGuarded_sizes _ _, ?_⟩
  intro a hunt
  have huntl : ∀ l, l < numel index →
      offsetOf self.strides (replacedCoord (-1) index dim.toNat l) ≠ a := by
    intro l hl
    rw [replacedCoord_neg_one]
    exact hunt _ (mem_allCoords_iff.mpr (validCoord_unflatten index.sizes l hl))
  rw [hfun, hK]
  exact guarded_frame .assign self (replacedCoord (-1) index dim.toNat) _
    (numel index) a hTC huntl

/-- C3 witness: scatter of ones into a sentinel-filled 2-by-2 destination
with a single-row index; the unaddressed storage positions keep the
sentinel. -/
theorem C3_witness :
    ∃ t, scatter_ { sizes := [2, 2], strides := [2, 1], data := [9, 9, 9, 9], dtype := .float32 } 1
        { sizes := [1, 2], strides := [2, 1], data := [1, 0], dtype := .int64 }
        { sizes := [2, 2], strides := [2, 1], data := [1, 1, 1, 1], dtype := .float32 }
      = .ok t
    ∧ t.sizes = [2, 2]
    ∧ ∀ a : Nat,
        (∀ k ∈ allCoords ([1, 2] : List Nat),
          offsetOf [2, 1]
            (k.set 1 (readTensor { sizes := [1, 2], strides := [2, 1], data := [1, 0], dtype := .int64 } k).toNat) ≠ a) →
        t.data.getD a 0
          = [(9 : Int), 9, 9, 9].getD a 0 :=
  C3_scatter_frame _ _ _ 1 (by decide) rfl rfl (by decide) (by decide) (by decide)
    (by decide) (by decide) (by decide) (by decide) (by decide)

/-! ### Accumulation steps commute -/

lemma scatterAdd_step_comm (strides : List Nat) (tc : Nat → List Nat) (v : Nat → Val)
    (d : List Val) (l1 l2 : Nat) :
    indexedWrite .accumulate strides tc v (indexedWrite .accumulate strides tc v d l1) l2
      = indexedWrite .accumulate strides tc v (indexedWrite .accumulate strides tc v d l2) l1 := by
  by_cases ha : offsetOf strides (tc l1) = offsetOf strides (tc l2)
  · by_cases hlen : offsetOf strides (tc l1) < d.length
    · simp only [indexedWrite, ha]
      rw [getD_set_self _ _ _ (by omega),
        getD_set_self _ _ _ (by omega),
        List.set_set, List.set_set]
      congr 1
      ring
    · have h1 : ∀ z : Val, d.set (offsetOf strides (tc l1)) z = d :=
        fun z => List.set_eq_of_length_le (by omega)
      have h2 : ∀ z : Val, d.set (offsetOf strides (tc l2)) z = d :=
        fun z => List.set_eq_of_length_le (by omega)
      simp only [indexedWrite, h1, h2]
  · simp only [indexedWrite]
    rw [getD_set_ne ha, getD_set_ne (Ne.symm ha),
      List.set_comm _ _ _ ha]

lemma scatterAddKernelOrd_perm (order1 order2 : List Nat) (h : order1.Perm order2)
    (dims : Int) (tensor src index : Tensor) (dim : Nat) :
    THSyclTensor_scatterAddKernelOrd order1 dims tensor src index dim
      = THSyclTensor_scatterAddKernelOrd order2 dims tensor src index dim := by
  unfold THSyclTensor_scatterAddKernelOrd
  exact @List.Perm.foldl_eq _ _ _ order1 order2
    ⟨fun d l1 l2 => scatterAdd_step_comm tensor.strides
      (replacedCoord dims index dim)
      (fun l => src.data.getD (offsetOf src.strides (coordCompute dims index.sizes l)) 0)
      d l1 l2⟩ h tensor.data

/-! ### Claim theorem: scatter_add sums are order-independent -/

/-- C8 counterexample: the claim quantifies over every valid scatter_add
call, but on a destination whose stride pattern aliases (sizes [2], strides
[0], storage [5]) with both index entries targeting address 0 and source
contributions 1 and 2, the call returns the destination with storage still
[5]: the guard accumulates into separate clone cells and the copy-back's
last write discards the sums, so the final value at the address is 5 while
the claimed prior-plus-sum value is 8.  The first conjunct evaluates the
call; the second evaluates the claim's prior-plus-sum expression at that
address to 8; the third records that the two differ. -/
theorem C8_counterexample_aliased_sum_lost :
    scatter_add_ { sizes := [2], strides := [0], data := [5], dtype := .int32 } 0
        { sizes := [2], strides := [1], data := [0, 0], dtype := .int64 }
        { sizes := [2], strides := [1], data := [1, 2], dtype := .int32 }
      = .ok { sizes := [2], strides := [0], data := [5], dtype := .int32 }
    ∧ ([(5 : Int)].getD 0 0
        + (((List.range 2).filter fun l =>
            offsetOf [0] (replacedCoord (-1)
              { sizes := [2], strides := [1], data := [0, 0], dtype := .int64 } 0 l) == 0).map
            fun l => [(1 : Int), 2].getD
              (offsetOf [1] (coordCompute (-1) [2] l)) 0).sum) = 8
    ∧ ([(5 : Int)].getD 0 0 ≠ 8) :=
  ⟨rfl, rfl, by decide⟩

/-- C8 amended: for every valid scatter_add call on a destination whose
stride pattern does not permit two coordinates to alias the same address,
the result is the accumulation kernel run over the linear indices; running
it over any permutation of that processing order yields the same storage,
and the final value at every storage address equals the prior destination
value plus the sum of all source contributions whose target coordinate maps
to that address (so duplicate targets accumulate, independently of
processing order; values are modelled as integers, so no floating-point
reassociation is involved).  On an aliasing destination the guard's
per-coordinate clone plus lossy copy-back can discard contributions, as the
counterexample shows. -/
theorem C8_scatter_add_order_invariant (self index src : Tensor) (dim : Int)
    (numeric : (IS_FLOAT32 self.dtype || IS_INT self.dtype) = true)
    (hnoov : maybeOverlappingIndices self = false)
    (hne0 : 0 < numel index)
    (hris : index.sizes.length = src.sizes.length)
    (hrst : src.sizes.length = self.sizes.length)
    (hrpos : 0 < self.sizes.length)
    (hd1 : 0 ≤ dim) (hd2 : dim < (self.sizes.length : Int))
    (hsz1 : ∀ d, d < self.sizes.length → (d : Int) ≠ dim →
        index.sizes.getD d 1 ≤ self.sizes.getD d 1)
    (hsz2 : ∀ d, d < self.sizes.length →
        index.sizes.getD d 1 ≤ src.sizes.getD d 1)
    (hmax : self.sizes.length ≤ MAX_DPCPPTORCH_DIMS)
    (h64 : numel index < 2 ^ 64) :
    ∃ t, scatter_add_ self dim index src = .ok t
      ∧ t.data = THSyclTensor_scatterAddKernelOrd (List.range (numel index)) (-1)
          self src index dim.toNat
      ∧ (∀ order : List Nat, order.Perm (List.range (numel index)) →
          THSyclTensor_scatterAddKernelOrd order (-1) self src index dim.toNat
            = t.data)
      ∧ ∀ a : Nat, a < self.data.length →
          t.data.getD a 0
            = self.data.getD a 0
              + (((List.range (numel index)).filter fun l =>
                  offsetOf self.strides (replacedCoord (-1) index dim.toNat l) == a).map
                  fun l => src.data.getD
                    (offsetOf src.strides (coordCompute (-1) index.sizes l)) 0).sum := by
  have hlenIS : index.sizes.length = self.sizes.length := hris.trans hrst
  have hndIdx : nDimensionLegacyNoScalars index = self.sizes.length := by
    simp only [nDimensionLegacyNoScalars, hlenIS]
    omega
  have hndSrc : nDimensionLegacyNoScalars src = self.sizes.length := by
    simp only [nDimensionLegacyNoScalars, hrst]
    omega
  have hndSelf : nDimensionLegacyNoScalars self = self.sizes.length := by
    simp only [nDimensionLegacyNoScalars]
    omega
  have hne : ¬ nDimensionLegacyAll index = 0 := by
    simp only [nDimensionLegacyAll]
    rw [if_neg (by omega)]
    omega
  have hsizeIdx : ∀ d, sizeLegacyNoScalars index d = index.sizes.getD d 1 := by
    intro d
    have h : index.sizes.isEmpty = false := by
      cases hs : index.sizes with
      | nil => rw [hs] at hlenIS; simp at hlenIS; omega
      | cons a as => rfl
    simp [sizeLegacyNoScalars, h]
  have hsizeSelf : ∀ d, sizeLegacyNoScalars self d = self.sizes.getD d 1 := by
    intro d
    have h : self.sizes.isEmpty = false := by
      cases hs : self.sizes with
      | nil => rw [hs] at hrpos; simp at hrpos
      | cons a as => rfl
    simp [sizeLegacyNoScalars, h]
  have hsizeSrc : ∀ d, sizeLegacyNoScalars src d = src.sizes.getD d 1 := by
    intro d
    have h : src.sizes.isEmpty = false := by
      cases hs : src.sizes with
      | nil => rw [hs] at hrst; simp at hrst; omega
      | cons a as => rfl
    simp [sizeLegacyNoScalars, h]
  have hall : ((List.range (nDimensionLegacyNoScalars self)).all fun d =>
      (((d : Int) == dim) ||
        decide (sizeLegacyNoScalars index d ≤ sizeLegacyNoScalars self d)) &&
      decide (sizeLegacyNoScalars index d ≤ sizeLegacyNoScalars src d)) = true := by
    rw [List.all_eq_true]
    intro d hd
    rw [List.mem_range, hndSelf] at hd
    rw [Bool.and_eq_true]
    constructor
    · by_cases hdd : (d : Int) = dim
      · simp [hdd]
      · rw [hsizeIdx, hsizeSelf, Bool.or_eq_true]
        exact Or.inr (decide_eq_true (hsz1 d hd hdd))
    · rw [hsizeIdx, hsizeSrc]
      exact decide_eq_true (hsz2 d hd)
  have hok : ScatterAddImpl self dim index src
      = .ok (runGuarded (scatterAddDispatch src index dim (numel index)) self).1 :=
    ScatterAddImpl_ok self src index dim hne ⟨hd1, by rw [hndSelf]; exact hd2⟩
      (hndIdx.trans hndSrc.symm) (hndSrc.trans hndSelf.symm) hall hmax
  have himpl : scatter_add_ self dim index src = ScatterAddImpl self dim index src := by
    unfold scatter_add_
    rw [if_pos numeric]
  have hdata : scatterAddDispatch src index dim (numel index) self
      = THSyclTensor_scatterAddKernelOrd (List.range (numel index)) (-1)
          self src index dim.toNat := by
    rw [scatterAddDispatch_canon src index dim h64 self, if_pos hne0]
    unfold THSyclTensor_scatterAddKernel
    rw [Nat.mod_eq_of_lt h64]
  have hguard : (runGuarded (scatterAddDispatch src index dim (numel index)) self).1
      = { self with data := scatterAddDispatch src index dim (numel index) self } := by
    rw [runGuarded, if_neg (by simp [hnoov])]
  refine ⟨{ self with
      data := THSyclTensor_scatterAddKernelOrd (List.range (numel index)) (-1) self
          src index dim.toNat },
    by rw [himpl, hok, hguard, hdata], rfl, ?_, ?_⟩
  · intro order hperm
    exact scatterAddKernelOrd_perm order (List.range (numel index)) hperm
      (-1) self src index dim.toNat
  · intro a ha
    show (THSyclTensor_scatterAddKernelOrd (List.range (numel index)) (-1)
        self src index dim.toNat).getD a 0 = _
    unfold THSyclTensor_scatterAddKernelOrd
    exact foldl_accum_getD self.strides (replacedCoord (-1) index dim.toNat)
      (fun l => src.data.getD (offsetOf src.strides (coordCompute (-1) index.sizes l)) 0)
      a (List.range (numel index)) self.data ha

/-- C8 witness: two index entries targeting the same destination cell; the
final value is the prior value plus both contributions, and a swapped
processing order gives the same storage. -/
theorem C8_witness :
    ∃ t, scatter_add_ { sizes := [2], strides := [1], data := [10, 20], dtype := .int32 } 0
        { sizes := [2], strides := [1], data := [0, 0], dtype := .int64 }
        { sizes := [2], strides := [1], data := [1, 2], dtype := .int32 }
      = .ok t
      ∧ t.data = THSyclTensor_scatterAddKernelOrd (List.range 2) (-1)
          { sizes := [2], strides := [1], data := [10, 20], dtype := .int32 }
          { sizes := [2], strides := [1], data := [1, 2], dtype := .int32 }
          { sizes := [2], strides := [1], data := [0, 0], dtype := .int64 } 0
      ∧ (∀ order : List Nat, order.Perm (List.range 2) →
          THSyclTensor_scatterAddKernelOrd order (-1)
            { sizes := [2], strides := [1], data := [10, 20], dtype := .int32 }
            { sizes := [2], strides := [1], data := [1, 2], dtype := .int32 }
            { sizes := [2], strides := [1], data := [0, 0], dtype := .int64 } 0
          = t.data)
      ∧ ∀ a : Nat, a < 2 →
          t.data.getD a 0
            = [(10 : Int), 20].getD a 0
              + (((List.range 2).filter fun l =>
                  offsetOf [1] (replacedCoord (-1)
                    { sizes := [2], strides := [1], data := [0, 0], dtype := .int64 } 0 l) == a).map
                  fun l => [(1 : Int), 2].getD
                    (offsetOf [1] (coordCompute (-1) [2] l)) 0).sum :=
  C8_scatter_add_order_invariant _ _ _ 0 (by decide) (by decide) (by decide) rfl rfl
    (by decide) (by decide) (by decide) (by decide) (by decide) (by decide) (by decide)

/-! ### Clone-versus-direct simulation for the Aliasing Guard claim -/

lemma clone_direct_sim (mode : WriteMode) (szs strds : List Nat) (tc : Nat → List Nat)
    (v : Nat → Val) (a : Nat) (cstar : List Nat)
    (hc : validCoord cstar szs = true) (hca : offsetOf strds cstar = a)
    (huniq : ∀ c, validCoord c szs = true → offsetOf strds c = a → c = cstar) :
    ∀ (ls : List Nat) (dC dD : List Val),
      (∀ l ∈ ls, validCoord (tc l) szs = true) →
      dC.length = szs.prod → a < dD.length →
      dD.getD a 0 = dC.getD (offsetOf (contigStrides szs) cstar) 0 →
      (ls.foldl (indexedWrite mode (contigStrides szs) tc v) dC).getD
          (offsetOf (contigStrides szs) cstar) 0
        = (ls.foldl (indexedWrite mode strds tc v) dD).getD a 0 := by
  intro ls
  induction ls with
  | nil =>
    intro dC dD _ _ _ hinv
    exact hinv.symm
  | cons l0 rest ih =>
    intro dC dD hval hlenC hlenD hinv
    rw [List.foldl_cons, List.foldl_cons]
    apply ih
    · exact fun l hl => hval l (List.mem_cons_of_mem _ hl)
    · rw [indexedWrite_length]; exact hlenC
    · rw [indexedWrite_length]; exact hlenD
    · have hfc : offsetOf (contigStrides szs) cstar < dC.length := by
        rw [hlenC]
        exact offsetOf_lt_prod cstar szs hc
      by_cases heq : tc l0 = cstar
      · cases mode with
        | assign =>
          simp only [indexedWrite, heq, hca]
          rw [getD_set_self _ _ _ hlenD, getD_set_self _ _ _ hfc]
        | accumulate =>
          simp only [indexedWrite, heq, hca]
          rw [getD_set_self _ _ _ hlenD, getD_set_self _ _ _ hfc, hinv]
      · have h1 : offsetOf strds (tc l0) ≠ a := fun h =>
          heq (huniq _ (hval l0 (List.mem_cons_self _ _)) h)
        have h2 : offsetOf (contigStrides szs) (tc l0)
            ≠ offsetOf (contigStrides szs) cstar := fun h =>
          heq (offsetOf_contig_inj (hval l0 (List.mem_cons_self _ _)) hc h)
        rw [indexedWrite_getD_ne _ _ _ _ _ _ _ h1,
          indexedWrite_getD_ne _ _ _ _ _ _ _ h2, hinv]

lemma guarded_unshared_agree (mode : WriteMode) (t : Tensor) (tc : Nat → List Nat)
    (v : Nat → Val) (total : Nat) (a : Nat)
    (hvalid : ∀ l ∈ List.range total, validCoord (tc l) t.sizes = true)
    (hwf : ∀ c ∈ allCoords t.sizes, offsetOf t.strides c < t.data.length)
    (hunsh : ∀ c1 ∈ allCoords t.sizes, ∀ c2 ∈ allCoords t.sizes,
      offsetOf t.strides c1 = a → offsetOf t.strides c2 = a → c1 = c2) :
    (runGuarded (fun work => (List.range total).foldl
        (indexedWrite mode work.strides tc v) work.data) t).1.data.getD a 0
      = ((List.range total).foldl (indexedWrite mode t.strides tc v) t.data).getD a 0 := by
  rw [runGuarded]
  split
  next hov =>
    by_cases hex : ∃ c, validCoord c t.sizes = true ∧ offsetOf t.strides c = a
    · rcases hex with ⟨cstar, hc, hca⟩
      have huniq : ∀ c, validCoord c t.sizes = true → offsetOf t.strides c = a →
          c = cstar :=
        fun c h1 h2 => hunsh c (mem_allCoords_iff.mpr h1) cstar (mem_allCoords_iff.mpr hc)
          h2 hca
      show ((allCoords t.sizes).foldl
          (fun (d : List Val) c =>
            d.set (offsetOf t.strides c)
              (((List.range total).foldl (indexedWrite mode (contigStrides t.sizes) tc v)
                (contiguousOf t).data).getD (offsetOf (contigStrides t.sizes) c) 0))
          t.data).getD a 0 = _
      rw [foldl_set_unique
        (fun c => offsetOf t.strides c)
        (fun c => ((List.range total).foldl
          (indexedWrite mode (contigStrides t.sizes) tc v)
          (contiguousOf t).data).getD (offsetOf (contigStrides t.sizes) c) 0)
        a cstar hca (allCoords t.sizes) t.data (mem_allCoords_iff.mpr hc)
        (fun c hcm h2 => huniq c (mem_allCoords_iff.mp hcm) h2)
        (hca ▸ hwf cstar (mem_allCoords_iff.mpr hc))]
      apply clone_direct_sim mode t.sizes t.strides tc v a cstar hc hca huniq
        (List.range total) (contiguousOf t).data t.data hvalid
        (contiguousOf_length t)
        (hca ▸ hwf cstar (mem_allCoords_iff.mpr hc))
      rw [contiguousOf_getD t cstar hc, hca]
    · have hnone : ∀ c, validCoord c t.sizes = true → offsetOf t.strides c ≠ a :=
        fun c h1 h2 => hex ⟨c, h1, h2⟩
      show ((allCoords t.sizes).foldl
          (fun (d : List Val) c =>
            d.set (offsetOf t.strides c)
              (((List.range total).foldl (indexedWrite mode (contigStrides t.sizes) tc v)
                (contiguousOf t).data).getD (offsetOf (contigStrides t.sizes) c) 0))
          t.data).getD a 0 = _
      rw [foldl_set_untouched
        (fun c => offsetOf t.strides c)
        (fun c => ((List.range total).foldl
          (indexedWrite mode (contigStrides t.sizes) tc v)
          (contiguousOf t).data).getD (offsetOf (contigStrides t.sizes) c) 0)
        a (allCoords t.sizes)
        (fun c hcm => hnone c (mem_allCoords_iff.mp hcm)) t.data]
      rw [foldl_indexedWrite_untouched mode t.strides tc v a (List.range total)
        (fun l hl => hnone (tc l) (hvalid l hl)) t.data]
  next hov =>
    rfl

/-! ### Claim theorem: the Aliasing Guard -/

/-- C5 counterexample: a destination whose stride pattern aliases both
coordinates to one address (sizes [2], strides [0]).  The guard clones,
fills coordinate 0 with 7 in the clone, and copies back — but the copy-back
writes the same address once per coordinate and the unaddressed
coordinate's prior value lands last, so the call returns the destination
with contents identical to before, while the operation's specified result
requires coordinate [0] to read the fill value 7.  The final contents do
not equal the specified result. -/
theorem C5_counterexample_aliased_contents_differ :
    scatter_fill_ { sizes := [2], strides := [0], data := [5], dtype := .float32 } 0
        { sizes := [1], strides := [1], data := [0], dtype := .int64 } 7
      = .ok { sizes := [2], strides := [0], data := [5], dtype := .float32 }
    ∧ specScatterFillRead { sizes := [2], strides := [0], data := [5], dtype := .float32 } 0
        { sizes := [1], strides := [1], data := [0], dtype := .int64 } 7 [0] = 7
    ∧ readTensor { sizes := [2], strides := [0], data := [5], dtype := .float32 } [0] = 5 :=
  ⟨rfl, rfl, rfl⟩

/-- C5 amended: the guard mechanism is exactly as described — when the
destination's stride pattern permits aliasing the engine substitutes a
contiguous buffer initialized as a full value-copy of the destination, runs
the kernel on it and copies the buffer back into the original destination,
and when no aliasing is detected the destination is used directly with no
extra copy (first conjunct, for any kernel).  The original destination's
final contents equal the result of running the kernel directly on the
destination (the operation's specified result) at every storage address
reached by at most one destination coordinate — in particular everywhere
when no aliasing is detected; at genuinely aliased addresses the
coordinate-level contract is unsatisfiable (second conjunct, for every
assign- or accumulate-style kernel of the engine's form). -/
theorem C5_amended_guard_mechanism :
    (∀ (kern : Tensor → List Val) (t : Tensor),
        (runGuarded kern t).2 = maybeOverlappingIndices t
        ∧ (maybeOverlappingIndices t = true →
            runGuarded kern t
              = (copyBackInto t { contiguousOf t with data := kern (contiguousOf t) },
                  true))
        ∧ (maybeOverlappingIndices t = false →
            runGuarded kern t = ({ t with data := kern t }, false)))
    ∧ (∀ (mode : WriteMode) (t : Tensor) (tc : Nat → List Nat) (v : Nat → Val)
        (total : Nat) (a : Nat),
        (∀ l ∈ List.range total, validCoord (tc l) t.sizes = true) →
        (∀ c ∈ allCoords t.sizes, offsetOf t.strides c < t.data.length) →
        (∀ c1 ∈ allCoords t.sizes, ∀ c2 ∈ allCoords t.sizes,
          offsetOf t.strides c1 = a → offsetOf t.strides c2 = a → c1 = c2) →
        (runGuarded (fun work => (List.range total).foldl
            (indexedWrite mode work.strides tc v) work.data) t).1.data.getD a 0
          = ((List.range total).foldl
              (indexedWrite mode t.strides tc v) t.data).getD a 0) := by
  constructor
  · intro kern t
    refine ⟨?_, ?_, ?_⟩
    · cases hov : maybeOverlappingIndices t with
      | false => simp [runGuarded, hov]
      | true => simp [runGuarded, hov]
    · intro h
      rw [runGuarded, if_pos h]
    · intro h
      rw [runGuarded, if_neg (by simp [h])]
  · intro mode t tc v total a h1 h2 h3
    exact guarded_unshared_agree mode t tc v total a h1 h2 h3

/-- C5 witness: the guard clones on an aliasing destination and skips the
clone on a contiguous one, and the guarded and direct runs agree at an
unshared address of an aliasing destination. -/
theorem C5_witness :
    (runGuarded (fun work => work.data)
        { sizes := [2], strides := [0], data := [5], dtype := .float32 }).2
      = maybeOverlappingIndices { sizes := [2], strides := [0], data := [5], dtype := .float32 }
    ∧ runGuarded (fun work => work.data)
        { sizes := [2], strides := [1], data := [5, 6], dtype := .float32 }
      = ({ sizes := [2], strides := [1], data := [5, 6], dtype := .float32 }, false)
    ∧ (runGuarded (fun work => (List.range 1).foldl
          (indexedWrite .assign work.strides (fun _ => [0]) (fun _ => 7)) work.data)
        { sizes := [2], strides := [0], data := [5], dtype := .float32 }).1.data.getD 1 0
      = ((List.range 1).foldl
          (indexedWrite .assign [0] (fun _ => [0]) (fun _ => 7)) [5]).getD 1 0 := by
  refine ⟨(C5_amended_guard_mechanism.1 _ _).1, ?_, ?_⟩
  · have h := (C5_amended_guard_mechanism.1 (fun work => work.data)
      { sizes := [2], strides := [1], data := [5, 6], dtype := .float32 }).2.2 (by decide)
    exact h
  · exact C5_amended_guard_mechanism.2 .assign
      { sizes := [2], strides := [0], data := [5], dtype := .float32 }
      (fun _ => [0]) (fun _ => 7) 1 1 (by decide) (by decide) (by decide)
